import Mathlib

/-!
Verification of the forecast-to-verdict pipeline of the Uetliberg ticker.

The development embeds, as executable Lean functions, the decision logic of
`location_evaluator.py` (verdict normalization in `_parse_llm_response`, the
retry loop of `_analyze_with_llm`, flight-hour filtering in
`_filter_flight_hours`, day grouping in `_group_by_days`, the per-day
orchestration of `analyze_day`/`analyze`) and of `web.py`
(`load_weather_data`'s cache/file/live-fetch chain), together with the hybrid
two-model merge of the forecast fetcher, and proves the documented
behavioural properties about them.

JSON values are modelled by the inductive `JVal`; Python dicts are
association lists over `String` keys (insertion order preserved, keys unique
in every dict produced by `json.loads`).  Python's value coercions `bool`,
`int`, `str` are modelled on the integer fragment of JSON (floating point is
out of scope); `int()` and `str()` are partial exactly where the Python
functions raise.
-/

/-- JSON values as produced by `json.loads`, restricted to integer numbers. -/
inductive JVal where
| null : JVal
| jbool : Bool → JVal
| jint : Int → JVal
| jstr : String → JVal
| jarr : List JVal → JVal
| jobj : List (String × JVal) → JVal

instance : Inhabited JVal := ⟨JVal.null⟩

/-- A JSON object (Python dict with string keys), insertion-ordered. -/
abbrev JObj := List (String × JVal)

/-- Dict lookup `d.get(k)` / `d[k]`: first entry with the given key. -/
def lookupKey : List (String × β) → String → Option β
| [], _ => none
| p :: rest, k => if p.1 = k then some p.2 else lookupKey rest k

/-- Dict membership test `k in d`. -/
def hasKey (o : List (String × β)) (k : String) : Bool :=
  (lookupKey o k).isSome

/-- Replace the value of every entry whose key is `k` (a Python dict has at
most one such entry, where assignment updates it in place). -/
def replaceKey : List (String × β) → String → β → List (String × β)
| [], _, _ => []
| p :: rest, k, v => (if p.1 = k then (k, v) else p) :: replaceKey rest k v

/-- Dict assignment `d[k] = v`: update in place if the key exists, else
append a new entry (Python dicts preserve insertion order). -/
def setKey (o : List (String × β)) (k : String) (v : β) : List (String × β) :=
  if hasKey o k then replaceKey o k v else o ++ [(k, v)]

/-- Dict removal `d.pop(k, default)` (the value part is read separately). -/
def delKey (o : List (String × β)) (k : String) : List (String × β) :=
  o.filter (fun p => !(p.1 == k))

theorem lookupKey_append_none (a b : List (String × β)) (k : String)
    (h : lookupKey a k = none) : lookupKey (a ++ b) k = lookupKey b k := by
  induction a with
  | nil => simp
  | cons p rest ih =>
    by_cases hp : p.1 = k
    · simp [lookupKey, hp] at h
    · simp only [lookupKey, hp, if_false] at h
      simp only [List.cons_append, lookupKey, hp, if_false]
      exact ih h

theorem lookupKey_append_some (a b : List (String × β)) (k : String) (v : β)
    (h : lookupKey a k = some v) : lookupKey (a ++ b) k = some v := by
  induction a with
  | nil => simp [lookupKey] at h
  | cons p rest ih =>
    by_cases hp : p.1 = k
    · simp only [lookupKey, hp, if_true] at h
      simp only [List.cons_append, lookupKey, hp, if_true]
      exact h
    · simp only [lookupKey, hp, if_false] at h
      simp only [List.cons_append, lookupKey, hp, if_false]
      exact ih h

theorem lookupKey_replaceKey_self (o : List (String × β)) (k : String) (v : β)
    (h : hasKey o k = true) : lookupKey (replaceKey o k v) k = some v := by
  induction o with
  | nil => simp [hasKey, lookupKey] at h
  | cons p rest ih =>
    by_cases hp : p.1 = k
    · simp [replaceKey, hp, lookupKey]
    · have h' : hasKey rest k = true := by
        simpa [hasKey, lookupKey, hp] using h
      simp [replaceKey, hp, lookupKey, ih h']

theorem lookupKey_replaceKey_ne (o : List (String × β)) {k k' : String} (v : β)
    (h : k' ≠ k) : lookupKey (replaceKey o k v) k' = lookupKey o k' := by
  induction o with
  | nil => rfl
  | cons p rest ih =>
    by_cases hp : p.1 = k
    · have hk : ¬(k = k') := fun hh => h hh.symm
      simp [replaceKey, hp, lookupKey, hk, ih]
    · simp only [replaceKey, hp, if_false, lookupKey]
      by_cases hpq : p.1 = k'
      · simp [hpq]
      · simp [hpq, ih]

theorem lookupKey_setKey_self (o : List (String × β)) (k : String) (v : β) :
    lookupKey (setKey o k v) k = some v := by
  unfold setKey
  by_cases h : hasKey o k = true
  · simp [h, lookupKey_replaceKey_self o k v h]
  · have hnone : lookupKey o k = none := by
      cases hv : lookupKey o k with
      | none => rfl
      | some w => simp [hasKey, hv] at h
    rw [if_neg h, lookupKey_append_none _ _ _ hnone]
    simp [lookupKey]

theorem lookupKey_setKey_ne (o : List (String × β)) {k k' : String} (v : β)
    (h : k' ≠ k) : lookupKey (setKey o k v) k' = lookupKey o k' := by
  unfold setKey
  by_cases hh : hasKey o k = true
  · simp [hh, lookupKey_replaceKey_ne o v h]
  · rw [if_neg hh]
    cases hv : lookupKey o k' with
    | none =>
      rw [lookupKey_append_none _ _ _ hv]
      have hk : ¬(k = k') := fun hk2 => h hk2.symm
      simp [lookupKey, hk]
    | some w => exact lookupKey_append_some _ _ _ _ hv

theorem hasKey_setKey_self (o : List (String × β)) (k : String) (v : β) :
    hasKey (setKey o k v) k = true := by
  simp [hasKey, lookupKey_setKey_self]

theorem hasKey_setKey_ne (o : List (String × β)) {k k' : String} (v : β)
    (h : k' ≠ k) : hasKey (setKey o k v) k' = hasKey o k' := by
  simp [hasKey, lookupKey_setKey_ne o v h]

theorem entries_replaceKey {o : List (String × β)} {k : String} {v : β} :
    ∀ p ∈ replaceKey o k v, p.1 = k → p.2 = v := by
  induction o with
  | nil => intro p hp; simp [replaceKey] at hp
  | cons q rest ih =>
    intro p hp hk
    rcases List.mem_cons.mp hp with hp | hp
    · by_cases hq : q.1 = k
      · simp only [replaceKey, hq, if_true] at hp
        subst hp; rfl
      · simp only [replaceKey, hq, if_false] at hp
        subst hp; exact absurd hk hq
    · exact ih p hp hk

theorem mem_replaceKey {o : List (String × β)} {k : String} {v : β} {p : String × β}
    (hp : p ∈ replaceKey o k v) : p = (k, v) ∨ p ∈ o := by
  induction o with
  | nil => simp [replaceKey] at hp
  | cons q rest ih =>
    rcases List.mem_cons.mp hp with hp | hp
    · by_cases hq : q.1 = k
      · simp only [hq, if_true] at hp
        exact Or.inl hp
      · simp only [hq, if_false] at hp
        exact Or.inr (by simp [hp])
    · rcases ih hp with h | h
      · exact Or.inl h
      · exact Or.inr (List.mem_cons_of_mem _ h)

theorem mem_setKey {o : List (String × β)} {k : String} {v : β} {p : String × β}
    (hp : p ∈ setKey o k v) : p = (k, v) ∨ p ∈ o := by
  unfold setKey at hp
  by_cases hh : hasKey o k = true
  · rw [if_pos hh] at hp
    exact mem_replaceKey hp
  · rw [if_neg hh] at hp
    rcases List.mem_append.mp hp with hp | hp
    · exact Or.inr hp
    · exact Or.inl (List.mem_singleton.mp hp)

theorem entries_of_not_hasKey {o : List (String × β)} {k : String}
    (h : ¬(hasKey o k = true)) : ∀ p ∈ o, p.1 ≠ k := by
  induction o with
  | nil => intro p hp; simp at hp
  | cons q rest ih =>
    intro p hp
    by_cases hq : q.1 = k
    · simp [hasKey, lookupKey, hq] at h
    · rcases List.mem_cons.mp hp with hp | hp
      · subst hp; exact hq
      · exact ih (by simpa [hasKey, lookupKey, hq] using h) p hp

theorem entries_setKey {o : List (String × β)} {k : String} {v : β} :
    ∀ p ∈ setKey o k v, p.1 = k → p.2 = v := by
  intro p hp hk
  unfold setKey at hp
  by_cases hh : hasKey o k = true
  · rw [if_pos hh] at hp
    exact entries_replaceKey p hp hk
  · rw [if_neg hh] at hp
    rcases List.mem_append.mp hp with hp | hp
    · exact absurd hk (entries_of_not_hasKey hh p hp)
    · rw [List.mem_singleton.mp hp]

/-- All entries of key `k` carry value `v`, and the key is present.  After a
dict assignment `d[k] = v` this holds for `k`, and further assignments to
other keys preserve it. -/
def keyUniform (o : List (String × β)) (k : String) (v : β) : Prop :=
  lookupKey o k = some v ∧ ∀ p ∈ o, p.1 = k → p.2 = v

theorem keyUniform_setKey (o : List (String × β)) (k : String) (v : β) :
    keyUniform (setKey o k v) k v :=
  ⟨lookupKey_setKey_self o k v, entries_setKey⟩

theorem keyUniform_setKey_ne {o : List (String × β)} {k k' : String} {v v' : β}
    (h : keyUniform o k v) (hne : k' ≠ k) : keyUniform (setKey o k' v') k v := by
  refine ⟨?_, ?_⟩
  · rw [lookupKey_setKey_ne o v' (fun hh => hne hh.symm)]
    exact h.1
  · intro p hp hk
    rcases mem_setKey hp with hp | hp
    · rw [hp] at hk
      exact absurd hk hne
    · exact h.2 p hp hk

theorem replaceKey_of_uniform {o : List (String × β)} {k : String} {v : β}
    (h : ∀ p ∈ o, p.1 = k → p.2 = v) : replaceKey o k v = o := by
  induction o with
  | nil => rfl
  | cons q rest ih =>
    have htail : replaceKey rest k v = rest :=
      ih (fun p hp hk => h p (List.mem_cons_of_mem _ hp) hk)
    by_cases hq : q.1 = k
    · have hv : q.2 = v := h q (List.mem_cons_self _ _) hq
      have hqeq : (k, v) = q := by
        cases q with
        | mk a b =>
          simp only at hq hv
          rw [hq, hv]
      simp [replaceKey, hq, htail, hqeq]
    · simp [replaceKey, hq, htail]

theorem setKey_of_keyUniform {o : List (String × β)} {k : String} {v : β}
    (h : keyUniform o k v) : setKey o k v = o := by
  have hh : hasKey o k = true := by simp [hasKey, h.1]
  unfold setKey
  simp [hh, replaceKey_of_uniform h.2]

theorem hasKey_of_keyUniform {o : List (String × β)} {k : String} {v : β}
    (h : keyUniform o k v) : hasKey o k = true := by
  simp [hasKey, h.1]

/-! ## Python value coercions (integer fragment) -/

/-- Python truthiness `bool(x)` for JSON values: `None`, `False`, `0`, `""`,
`[]` and `{}` are falsy, everything else truthy. -/
def pyBool : JVal → Bool
| JVal.null => false
| JVal.jbool b => b
| JVal.jint n => n != 0
| JVal.jstr s => s != ""
| JVal.jarr xs => !xs.isEmpty
| JVal.jobj fs => !fs.isEmpty

/-- Whitespace stripped by Python's `int(str)`. -/
def isPySpace (c : Char) : Bool :=
  c == ' ' || c == '\t' || c == '\n' || c == '\r'

def isDigitChar (c : Char) : Bool :=
  48 ≤ c.toNat && c.toNat ≤ 57

def digitsToNat (cs : List Char) : Nat :=
  cs.foldl (fun a c => a * 10 + (c.toNat - 48)) 0

/-- Python `int(s)` on a string: strip whitespace, optional sign, a nonempty
digit run; anything else raises `ValueError` (modelled as `none`). -/
def strToInt (s : String) : Option Int :=
  let cs := ((s.data.dropWhile isPySpace).reverse.dropWhile isPySpace).reverse
  match cs with
  | [] => none
  | '-' :: ds =>
    if !ds.isEmpty && ds.all isDigitChar then some (-(digitsToNat ds : Int)) else none
  | '+' :: ds =>
    if !ds.isEmpty && ds.all isDigitChar then some ((digitsToNat ds : Int)) else none
  | ds =>
    if ds.all isDigitChar then some ((digitsToNat ds : Int)) else none

/-- Python `int(x)`: identity on ints, 0/1 on bools, parse on strings;
raises (`none`) on `None`, lists and dicts. -/
def pyInt : JVal → Option Int
| JVal.jbool b => some (if b then 1 else 0)
| JVal.jint n => some n
| JVal.jstr s => strToInt s
| _ => none

/-- Python `str(x)` on scalar JSON values; the `repr`-based rendering of
lists and dicts is outside the modelled fragment (`none`). -/
def pyStr : JVal → Option String
| JVal.null => some "None"
| JVal.jbool b => some (if b then "True" else "False")
| JVal.jint n => some (toString n)
| JVal.jstr s => some s
| _ => none

/-- ASCII branch of Python's `str.upper` (the verdicts' condition words are
ASCII). -/
def upChar (c : Char) : Char :=
  if 97 ≤ c.toNat && c.toNat ≤ 122 then Char.ofNat (c.toNat - 32) else c

def pyUpper (s : String) : String :=
  String.mk (s.data.map upChar)

/-- ASCII branch of Python's `str.lower`, used by the location-key search. -/
def lowChar (c : Char) : Char :=
  if 65 ≤ c.toNat && c.toNat ≤ 90 then Char.ofNat (c.toNat + 32) else c

def pyLower (s : String) : String :=
  String.mk (s.data.map lowChar)

theorem toNat_ofNat_valid {n : Nat} (h1 : 33 ≤ n) (h2 : n ≤ 154) :
    (Char.ofNat n).toNat = n := by
  have hv : n.isValidChar := Or.inl (by omega)
  simp [Char.ofNat, hv, Char.ofNatAux, Char.toNat, UInt32.toNat, Nat.toUInt32,
    UInt32.ofNat, Fin.ofNat]

theorem upChar_upChar (c : Char) : upChar (upChar c) = upChar c := by
  unfold upChar
  by_cases h1 : 97 ≤ c.toNat
  · by_cases h2 : c.toNat ≤ 122
    · have hc : (97 ≤ c.toNat && c.toNat ≤ 122) = true := by simp [h1, h2]
      rw [hc]
      simp only [if_true]
      have hn : (Char.ofNat (c.toNat - 32)).toNat = c.toNat - 32 :=
        toNat_ofNat_valid (by omega) (by omega)
      have hlow : ¬(97 ≤ (Char.ofNat (c.toNat - 32)).toNat) := by rw [hn]; omega
      have hc2 : (97 ≤ (Char.ofNat (c.toNat - 32)).toNat &&
          (Char.ofNat (c.toNat - 32)).toNat ≤ 122) = false := by simp [hlow]
      rw [hc2]
      simp
    · have hc : (97 ≤ c.toNat && c.toNat ≤ 122) = false := by simp [h2]
      rw [hc]
      simp [hc]
  · have hc : (97 ≤ c.toNat && c.toNat ≤ 122) = false := by simp [h1]
    rw [hc]
    simp [hc]

theorem map_upChar_map_upChar (l : List Char) :
    List.map upChar (List.map upChar l) = List.map upChar l := by
  induction l with
  | nil => rfl
  | cons c cs ih => simp [upChar_upChar c, ih]

theorem pyUpper_pyUpper (s : String) : pyUpper (pyUpper s) = pyUpper s := by
  unfold pyUpper
  rw [map_upChar_map_upChar]

/-! ## Verdict normalization (`_parse_llm_response`, location_evaluator.py 409-459) -/

/-- `if k not in result: result[k] = v` (conditional default-filling). -/
def ensureKey (r : JObj) (k : String) (v : JVal) : JObj :=
  if hasKey r k then r else setKey r k v

/-- `if 'flyable' not in result: result['flyable'] = False` -/
def ensureFlyable (r : JObj) : JObj :=
  ensureKey r "flyable" (JVal.jbool false)

/-- `if 'details' not in result or not isinstance(result['details'], dict):
result['details'] = {}` -/
def ensureDetails (r : JObj) : JObj :=
  match lookupKey r "details" with
  | some (JVal.jobj _) => r
  | _ => setKey r "details" (JVal.jobj [])

/-- The dict behind `result.get('details', {})`; after `ensureDetails` this
entry is always an object. -/
def detailsObj (r : JObj) : JObj :=
  match lookupKey r "details" with
  | some (JVal.jobj d) => d
  | _ => []

/-- `if k not in result.get('details', {}):
result.setdefault('details', {})[k] = "Nicht verfügbar"` -/
def fillDetailField (r : JObj) (k : String) : JObj :=
  let d := detailsObj r
  if hasKey d k then r
  else setKey r "details" (JVal.jobj (setKey d k (JVal.jstr "Nicht verfügbar")))

/-- The four unconditional coercions:
`result['flyable'] = bool(result.get('flyable', False))`,
`result['rating'] = int(result.get('rating', 0))`,
`result['confidence'] = int(result.get('confidence', 0))`,
`result['conditions'] = str(result.get('conditions', 'UNKNOWN'))`;
`none` when an `int()`/`str()` call raises. -/
def coerceStage (r : JObj) : Option JObj :=
  let r1 := setKey r "flyable"
    (JVal.jbool (pyBool ((lookupKey r "flyable").getD (JVal.jbool false))))
  match pyInt ((lookupKey r1 "rating").getD (JVal.jint 0)) with
  | none => none
  | some rat =>
    let r2 := setKey r1 "rating" (JVal.jint rat)
    match pyInt ((lookupKey r2 "confidence").getD (JVal.jint 0)) with
    | none => none
    | some conf =>
      let r3 := setKey r2 "confidence" (JVal.jint conf)
      match pyStr ((lookupKey r3 "conditions").getD (JVal.jstr "UNKNOWN")) with
      | none => none
      | some c => some (setKey r3 "conditions" (JVal.jstr c))

/-- `if k not in result: result[k] = d` (summary / recommendation defaults). -/
def ensureField (r : JObj) (k d : String) : JObj :=
  ensureKey r k (JVal.jstr d)

/-- Validation of one entry of `hourly_evaluations`: each field is coerced
with a default, `conditions` additionally upper-cased; `none` when a
coercion raises. -/
def validateHourlyEntry (h : JObj) : Option JObj :=
  match pyInt ((lookupKey h "hour").getD (JVal.jint 0)) with
  | none => none
  | some hour =>
    match pyStr ((lookupKey h "timestamp").getD (JVal.jstr "")) with
    | none => none
    | some ts =>
      match pyStr ((lookupKey h "conditions").getD (JVal.jstr "UNKNOWN")) with
      | none => none
      | some cond =>
        let fly := pyBool ((lookupKey h "flyable").getD (JVal.jbool false))
        match pyInt ((lookupKey h "rating").getD (JVal.jint 0)) with
        | none => none
        | some rat =>
          match pyStr ((lookupKey h "reason").getD (JVal.jstr "Keine Begründung")) with
          | none => none
          | some reason =>
            some [("hour", JVal.jint hour), ("timestamp", JVal.jstr ts),
              ("conditions", JVal.jstr (pyUpper cond)), ("flyable", JVal.jbool fly),
              ("rating", JVal.jint rat), ("reason", JVal.jstr reason)]

/-- The loop over `result['hourly_evaluations']`: dict-shaped entries are
validated, non-dict entries silently dropped. -/
def validateHourlyList : List JVal → Option (List JVal)
| [] => some []
| JVal.jobj h :: rest =>
  match validateHourlyEntry h with
  | none => none
  | some v =>
    match validateHourlyList rest with
    | none => none
    | some vs => some (JVal.jobj v :: vs)
| _ :: rest => validateHourlyList rest

/-- `hourly_evaluations` handling: a present list is validated entry-wise,
anything else is replaced by the empty list. -/
def hourlyStage (r : JObj) : Option JObj :=
  match lookupKey r "hourly_evaluations" with
  | some (JVal.jarr xs) =>
    match validateHourlyList xs with
    | none => none
    | some v => some (setKey r "hourly_evaluations" (JVal.jarr v))
  | _ => some (setKey r "hourly_evaluations" (JVal.jarr []))

/-- Lines 416-427 of `_parse_llm_response`: flyable default, details
default, the three detail placeholders in source order. -/
def stageOne (r : JObj) : JObj :=
  fillDetailField (fillDetailField (fillDetailField
    (ensureDetails (ensureFlyable r)) "wind") "thermik") "risks"

/-- Lines 434-437: the summary and recommendation defaults. -/
def stageThree (r2 : JObj) : JObj :=
  ensureField (ensureField r2 "summary" "Keine Zusammenfassung verfügbar")
    "recommendation" "Keine Empfehlung verfügbar"

/-- The full normalization of `_parse_llm_response` applied to the parsed
JSON object, in source order: flyable default, details default, the three
detail placeholders, the four coercions, summary/recommendation defaults,
hourly-evaluation validation.  `none` exactly where the Python code
raises. -/
def normalizeVerdict (r : JObj) : Option JObj :=
  match coerceStage (stageOne r) with
  | none => none
  | some r2 => hourlyStage (stageThree r2)

/-- `_parse_llm_response` on the decoded message content: `json.loads`
yielding anything but an object makes the subsequent subscript assignments
raise, which the retry loop re-raises. -/
def parseLlmContent (v : JVal) : Option JObj :=
  match v with
  | JVal.jobj o => normalizeVerdict o
  | _ => none

/-! ## Timestamps, flight-hour filter, day grouping -/

/-- Calendar date key (`strftime "%Y-%m-%d"`) and hour extracted from an
ISO-8601 timestamp. -/
structure TsVal where
  date : String
  hour : Nat
deriving DecidableEq

def twoDigits (a b : Char) : Nat :=
  (a.toNat - 48) * 10 + (b.toNat - 48)

/-- Optional seconds / trailing `Z` of a timestamp ( `'Z'` is rewritten to a
zero UTC offset before parsing, leaving `dt.hour` untouched). -/
def validTsTail : List Char → Bool
| [] => true
| ['Z'] => true
| ':' :: s1 :: s2 :: rest =>
  isDigitChar s1 && isDigitChar s2 && twoDigits s1 s2 < 60 &&
    (rest.isEmpty || rest == ['Z'])
| _ => false

/-- `datetime.fromisoformat(timestamp.replace('Z', '+00:00'))` on the
`YYYY-MM-DDTHH:MM[:SS][Z]` timestamps the forecast API produces, returning
the local calendar date and the hour of day; `none` for unparsable input
(the callers skip those). -/
def parseTs (s : String) : Option TsVal :=
  match s.data with
  | y1 :: y2 :: y3 :: y4 :: '-' :: m1 :: m2 :: '-' :: a1 :: a2 :: 'T' ::
      h1 :: h2 :: ':' :: n1 :: n2 :: rest =>
    if isDigitChar y1 && isDigitChar y2 && isDigitChar y3 && isDigitChar y4 &&
        isDigitChar m1 && isDigitChar m2 && isDigitChar a1 && isDigitChar a2 &&
        isDigitChar h1 && isDigitChar h2 && isDigitChar n1 && isDigitChar n2 &&
        1 ≤ twoDigits m1 m2 && twoDigits m1 m2 ≤ 12 &&
        1 ≤ twoDigits a1 a2 && twoDigits a1 a2 ≤ 31 &&
        twoDigits h1 h2 < 24 && twoDigits n1 n2 < 60 && validTsTail rest
    then some ⟨String.mk [y1, y2, y3, y4, '-', m1, m2, '-', a1, a2], twoDigits h1 h2⟩
    else none
  | _ => none

/-- The per-timestamp condition of `_filter_flight_hours`: the timestamp
parses and its hour satisfies `start_hour <= hour < end_hour`. -/
def tsInWindow (ts : String) (startHour endHour : Nat) : Bool :=
  match parseTs ts with
  | some t => decide (startHour ≤ t.hour) && decide (t.hour < endHour)
  | none => false

/-- `_filter_flight_hours` (location_evaluator.py 157-169): keep a timestamp
iff it parses and `start_hour <= hour < end_hour`; `filter_flight_hours` in
web.py (161-172) is the same filter at the configured bounds. -/
def filterFlightHours (hd : JObj) (startHour endHour : Nat) : JObj :=
  hd.filter (fun p => tsInWindow p.1 startHour endHour)

/-- One grouping step: append the record to its date's dict, creating the
date entry on first sight (insertion order preserved). -/
def addToDay (acc : List (String × JObj)) (dk ts : String) (v : JVal) :
    List (String × JObj) :=
  if hasKey acc dk then
    acc.map (fun p => if p.1 = dk then (p.1, p.2 ++ [(ts, v)]) else p)
  else acc ++ [(dk, [(ts, v)])]

/-- The grouping loops of `_group_by_days` (and `group_by_days` in web.py):
parsable timestamps are keyed by their calendar date, unparsable ones are
skipped. -/
def buildDays : JObj → List (String × JObj) → List (String × JObj)
| [], acc => acc
| p :: rest, acc =>
  match parseTs p.1 with
  | some t => buildDays rest (addToDay acc t.date p.1 p.2)
  | none => buildDays rest acc

/-- `_group_by_days` (location_evaluator.py 171-209): group hourly and
pressure-level data by calendar date, then restrict each day's hourly dict
to the flight-hour window and attach that day's pressure-level dict under
the reserved `_pressure_levels` key. -/
def groupByDays (hd pl : JObj) (startHour endHour : Nat) : List (String × JObj) :=
  let days := buildDays hd []
  let daysPl := buildDays pl []
  days.map (fun p =>
    (p.1, setKey (filterFlightHours p.2 startHour endHour) "_pressure_levels"
      (JVal.jobj ((lookupKey daysPl p.1).getD []))))

/-! ## String ordering (Python `sorted` compares by code point) -/

def listLe : List Char → List Char → Bool
| [], _ => true
| _ :: _, [] => false
| a :: as, b :: bs =>
  if a.toNat < b.toNat then true
  else if b.toNat < a.toNat then false
  else listLe as bs

/-- Python string comparison `a <= b`: lexicographic on code points. -/
def strLeB (a b : String) : Bool := listLe a.data b.data

theorem listLe_total (a b : List Char) : listLe a b = true ∨ listLe b a = true := by
  induction a generalizing b with
  | nil => left; rfl
  | cons x xs ih =>
    cases b with
    | nil => right; rfl
    | cons y ys =>
      by_cases h1 : x.toNat < y.toNat
      · left; simp [listLe, h1]
      · by_cases h2 : y.toNat < x.toNat
        · right; simp [listLe, h1, h2]
        · rcases ih ys with h | h
          · left; simp [listLe, h1, h2, h]
          · right; simp [listLe, h1, h2, h]

theorem listLe_trans (a b c : List Char) (h1 : listLe a b = true)
    (h2 : listLe b c = true) : listLe a c = true := by
  induction a generalizing b c with
  | nil => rfl
  | cons x xs ih =>
    cases b with
    | nil => simp [listLe] at h1
    | cons y ys =>
      cases c with
      | nil => simp [listLe] at h2
      | cons z zs =>
        simp only [listLe] at h1 h2 ⊢
        split at h1
        · next hxy =>
          split at h2
          · next hyz => simp [show x.toNat < z.toNat by omega]
          · next hyz =>
            split at h2
            · exact absurd h2 (by simp)
            · next hzy => simp [show x.toNat < z.toNat by omega]
        · next hxy =>
          split at h1
          · exact absurd h1 (by simp)
          · next hyx =>
            split at h2
            · next hyz => simp [show x.toNat < z.toNat by omega]
            · split at h2
              · exact absurd h2 (by simp)
              · next hzy =>
                have hxz : ¬(x.toNat < z.toNat) := by omega
                have hzx : ¬(z.toNat < x.toNat) := by omega
                simp only [hxz, if_false, hzx]
                exact ih ys zs h1 h2

/-- The relation Python's `sorted` sorts ascending by. -/
def strLe (a b : String) : Prop := strLeB a b = true

instance : DecidableRel strLe := fun a b => inferInstanceAs (Decidable (strLeB a b = true))

instance : IsTotal String strLe := ⟨fun a b => listLe_total a.data b.data⟩

instance : IsTrans String strLe := ⟨fun a b c => listLe_trans a.data b.data c.data⟩

/-- Python `sorted(keys)`. -/
def sortedStrings (l : List String) : List String :=
  List.insertionSort strLe l

theorem length_sortedStrings (l : List String) :
    (sortedStrings l).length = l.length :=
  (List.perm_insertionSort strLe l).length_eq

theorem sorted_sortedStrings (l : List String) :
    List.Pairwise strLe (sortedStrings l) :=
  List.sorted_insertionSort strLe l

theorem mem_sortedStrings {l : List String} {a : String} :
    a ∈ sortedStrings l ↔ a ∈ l :=
  (List.perm_insertionSort strLe l).mem_iff

/-! ## Configuration constants (config.py) and the LLM retry loop
(`_analyze_with_llm`, location_evaluator.py 335-407) -/

def FORECAST_DAYS : Nat := 3

def FLIGHT_HOURS_START : Nat := 9

def FLIGHT_HOURS_END : Nat := 18

def locationName : String := "Uetliberg - Startplatz Balderen"

def locationFluggebiet : String := "Uetliberg"

def locationTyp : String := "Startplatz"

def locationWindrichtung : String := "N-O"

def locationBemerkung : String :=
  "Benötigt gewisse Windstärke da man hier Soaren muss, ab 15km/h kann man Erfahrungsgemäss am Uetliberg gut fliegen ab 20km/h hat man sehr gute windstärke, wenn dann Thermikbedingungen gut sind hat man gute bedingungen, der Wind ist grundsätzlich aber ab 30km/h zu stark, dies sind jedoch keine Grenzwerte sondern müssen immer beurteilt werden"

/-- One outcome of `requests.post` as seen by the retry loop: a response
with a status code, carrying (for 200) the decoded verdict payload and (for
errors) the response text, or a transport-level failure. -/
inductive HttpResp where
| http (status : Nat) (content : JVal) (text : String)
| timedOut
| reqFail (msg : String)

def maxRetries : Nat := 3

def retryDelay : Nat := 1

def auth401Msg (text : String) : String :=
  "API Authentifizierungsfehler (401): Ungültiger API-Key? Response: " ++ text.take 200

def apiErrMsg (status : Nat) (text : String) : String :=
  "API Fehler " ++ toString status ++ ": " ++
    (if text = "" then "Keine Fehlermeldung" else text.take 500)

def timeoutMsg : String := "OpenAI API Timeout nach 60 Sekunden"

def reqFailMsg (m : String) : String := "API Request-Fehler: " ++ m

def parseFailMsg : String := "LLM-Antwort konnte nicht geparst werden"

/-- The final `raise` after the loop; an f-string renders an unset
`last_error` as `None`. -/
def failAllMsg (lastError : Option String) : String :=
  "OpenAI API Call fehlgeschlagen nach 3 Versuchen. Letzter Fehler: " ++
    (match lastError with | none => "None" | some s => s)

/-- Result of one `_analyze_with_llm` call: the verdict or the raised error,
the number of requests issued, and the `time.sleep` durations in order. -/
structure LlmOutcome where
  result : Except String JObj
  attempts : Nat
  sleeps : List Nat

/-- The `for attempt in range(max_retries)` loop.  200 parses and returns
(parse failures re-raise immediately); 429 sleeps `retry_delay * 2**attempt
* 2` and retries; 401 raises immediately; any other status, a timeout or a
request exception retries after `retry_delay * 2**attempt`, raising on the
last attempt; an exhausted loop raises with the last recorded error (429
never records one). -/
def llmLoop (resp : Nat → HttpResp) :
    List Nat → Option String → List Nat → LlmOutcome
| [], lastError, sleeps => ⟨Except.error (failAllMsg lastError), 0, sleeps⟩
| attempt :: rest, lastError, sleeps =>
  match resp attempt with
  | HttpResp.http 200 content _ =>
    match parseLlmContent content with
    | some v => ⟨Except.ok v, 1, sleeps⟩
    | none => ⟨Except.error parseFailMsg, 1, sleeps⟩
  | HttpResp.http 429 _ _ =>
    let waitTime := retryDelay * 2 ^ attempt * 2
    let out := llmLoop resp rest lastError (sleeps ++ [waitTime])
    ⟨out.result, out.attempts + 1, out.sleeps⟩
  | HttpResp.http 401 _ text => ⟨Except.error (auth401Msg text), 1, sleeps⟩
  | HttpResp.http status _ text =>
    let err := apiErrMsg status text
    if rest.isEmpty then ⟨Except.error err, 1, sleeps⟩
    else
      let out := llmLoop resp rest (some err) (sleeps ++ [retryDelay * 2 ^ attempt])
      ⟨out.result, out.attempts + 1, out.sleeps⟩
  | HttpResp.timedOut =>
    if rest.isEmpty then ⟨Except.error timeoutMsg, 1, sleeps⟩
    else
      let out := llmLoop resp rest (some timeoutMsg) (sleeps ++ [retryDelay * 2 ^ attempt])
      ⟨out.result, out.attempts + 1, out.sleeps⟩
  | HttpResp.reqFail m =>
    if rest.isEmpty then ⟨Except.error (reqFailMsg m), 1, sleeps⟩
    else
      let out := llmLoop resp rest (some (reqFailMsg m)) (sleeps ++ [retryDelay * 2 ^ attempt])
      ⟨out.result, out.attempts + 1, out.sleeps⟩

/-- `_analyze_with_llm`: run the retry loop over attempts `0, 1, 2`. -/
def analyzeWithLlm (resp : Nat → HttpResp) : LlmOutcome :=
  llmLoop resp (List.range maxRetries) none []

/-! ## Per-day orchestration (`analyze_day` / `analyze`,
location_evaluator.py 75-155) -/

/-- The `location_data` dict assembled in `analyze_day` from the static
`LOCATION` profile, the day's flight-hour dict (with `_pressure_levels`
popped), the popped pressure-level dict and the date. -/
def locationData (dayHours : JObj) (plData : JVal) (date : String) : JObj :=
  [("name", JVal.jstr locationName), ("fluggebiet", JVal.jstr locationFluggebiet),
   ("typ", JVal.jstr locationTyp), ("windrichtung", JVal.jstr locationWindrichtung),
   ("bemerkung", JVal.jstr locationBemerkung), ("hourly_data", JVal.jobj dayHours),
   ("pressure_level_data", plData), ("date", JVal.jstr date)]

/-- The synthetic worst-case verdict substituted when the LLM analysis of a
day raises: DANGEROUS, zero confidence, the error text in the risk detail. -/
def syntheticVerdict (err nowTs date : String) : JObj :=
  [("flyable", JVal.jbool false), ("rating", JVal.jint 0),
   ("confidence", JVal.jint 0), ("conditions", JVal.jstr "DANGEROUS"),
   ("summary", JVal.jstr ("Fehler: " ++ err)),
   ("details", JVal.jobj [("wind", JVal.jstr ""), ("thermik", JVal.jstr ""),
     ("risks", JVal.jstr ("Systemfehler: " ++ err))]),
   ("recommendation", JVal.jstr "Bitte später erneut versuchen."),
   ("timestamp", JVal.jstr nowTs), ("location", JVal.jstr locationName),
   ("date", JVal.jstr date)]

/-- `analyze_day`: pop `_pressure_levels`, build `location_data`, run the
prompt build + LLM call (abstracted as `llm`), stamp location/date/timestamp
on success, or substitute the synthetic verdict when anything raised. -/
def analyzeDay (llm : JObj → Except String JObj) (nowTs : String)
    (dayData : JObj) (date : String) : JObj :=
  let plData := (lookupKey dayData "_pressure_levels").getD (JVal.jobj [])
  let dayRest := delKey dayData "_pressure_levels"
  match llm (locationData dayRest plData date) with
  | Except.ok result =>
    setKey (setKey (setKey result "location" (JVal.jstr locationName))
      "date" (JVal.jstr date)) "timestamp" (JVal.jstr nowTs)
  | Except.error e => syntheticVerdict e nowTs date

/-- `sorted(days_data.keys())[:FORECAST_DAYS]`. -/
def targetDates (daysData : List (String × JObj)) : List String :=
  (sortedStrings (daysData.map Prod.fst)).take FORECAST_DAYS

/-- The day loop of `analyze`: one verdict per target date (result
persistence and mail dispatch are outside the returned value). -/
def analyzeAllDays (llm : JObj → Except String JObj) (nowTs : String)
    (daysData : List (String × JObj)) : List JObj :=
  (targetDates daysData).map (fun date =>
    analyzeDay llm nowTs ((lookupKey daysData date).getD []) date)

/-! ## Data-availability chain (`load_weather_data`, web.py 69-157) -/

/-- A character-list substring test (Python `needle in haystack`). -/
def listStarts : List Char → List Char → Bool
| [], _ => true
| _ :: _, [] => false
| a :: as, b :: bs => a == b && listStarts as bs

def listContains (pat : List Char) : List Char → Bool
| [] => pat.isEmpty
| c :: rest => listStarts pat (c :: rest) || listContains pat rest

/-- `'uetliberg' in key.lower() or 'balderen' in key.lower()`. -/
def keyMatches (k : String) : Bool :=
  listContains "uetliberg".data (pyLower k).data ||
    listContains "balderen".data (pyLower k).data

/-- The location-key search over a loaded weather dict: value of the first
matching key. -/
def findLocation (data : List (String × JVal)) : Option JVal :=
  (data.find? (fun p => keyMatches p.1)).map Prod.snd

/-- State of the persisted weather JSON file: absent, unreadable (raising
inside `json.load`), or a decoded top-level dict. -/
inductive FileState where
| absent
| corrupt
| content (data : List (String × JVal))

/-- Outcome of `fetch_weather_for_location(save_to_file=True, ...)`: an
exception, or the returned value (`none` models a `None` return). -/
inductive FetchOutcome where
| raises
| returns (d : Option (List (String × JVal)))

/-- Inputs of one `load_weather_data` call: the clock, the weather file, its
path string, whether the fetch import succeeded, and the live fetch's
behaviour (the call passes `save_to_file=True` and the weather path, so
persisting the result is the fetcher's side of the call). -/
structure WebEnv where
  now : Nat
  weatherFile : FileState
  weatherPath : String
  fetchAvailable : Bool
  fetch : FetchOutcome

/-- The module-level cache: `CACHED_WEATHER_DATA` and `LAST_FETCH_TIME`. -/
structure WebState where
  cachedWeatherData : Option JVal
  lastFetchTime : Nat

def CACHE_DURATION : Nat := 300

/-- `data['_debug_...'] = ...` annotations (only applied to dict values). -/
def annotate (v : JVal) (fields : List (String × JVal)) : JVal :=
  match v with
  | JVal.jobj o => JVal.jobj (fields.foldl (fun acc p => setKey acc p.1 p.2) o)
  | _ => v

/-- Result of a `load_weather_data` call: the returned value or the raised
error, the module state afterwards, and whether the file was read
respectively the live fetch performed. -/
structure LoadResult where
  outcome : Except String JVal
  finalState : WebState
  fileRead : Bool
  fetched : Bool

def noDataMsg : String :=
  "Wetterdaten konnten weder aus Datei geladen noch live abgerufen werden."

/-- The cache fast path's return value: the cached dict annotated in place
with its debug source and timestamp. -/
def cacheAnnotated (st : WebState) : JVal :=
  annotate (st.cachedWeatherData.getD JVal.null)
    [("_debug_source", JVal.jstr "CACHE_MEMORY"),
     ("_debug_timestamp", JVal.jstr (toString st.lastFetchTime))]

/-- The file path's return value: the located dict annotated with its debug
source and the file path. -/
def fileAnnotated (env : WebEnv) (v : JVal) : JVal :=
  annotate v [("_debug_source", JVal.jstr "FILE_SYSTEM"),
    ("_debug_path", JVal.jstr env.weatherPath)]

/-- The live-fetch path's return value. -/
def liveAnnotated (v : JVal) : JVal :=
  annotate v [("_debug_source", JVal.jstr "LIVE_FETCH")]

/-- Step 3 of the chain: the live fetch (`fetch_weather_for_location` with
`save_to_file=True`), caching a found location or falling through to the
terminal error. -/
def loadLive (env : WebEnv) (st : WebState) (readFile : Bool) : LoadResult :=
  if env.fetchAvailable then
    match env.fetch with
    | FetchOutcome.raises => ⟨Except.error noDataMsg, st, readFile, true⟩
    | FetchOutcome.returns d =>
      match d with
      | none => ⟨Except.error noDataMsg, st, readFile, true⟩
      | some l =>
        if l.isEmpty then ⟨Except.error noDataMsg, st, readFile, true⟩
        else
          match findLocation l with
          | some v =>
            ⟨Except.ok (liveAnnotated v), ⟨some (liveAnnotated v), env.now⟩,
             readFile, true⟩
          | none => ⟨Except.error noDataMsg, st, readFile, true⟩
  else ⟨Except.error noDataMsg, st, readFile, false⟩

/-- Step 2 of the chain: the persisted file, falling through to the live
fetch when the file is absent, unreadable or has no matching location. -/
def loadFromFile (env : WebEnv) (st : WebState) : LoadResult :=
  match env.weatherFile with
  | FileState.content data =>
    (match findLocation data with
     | some v =>
       ⟨Except.ok (fileAnnotated env v), ⟨some (fileAnnotated env v), env.now⟩,
        true, false⟩
     | none => loadLive env st true)
  | FileState.corrupt => loadLive env st true
  | FileState.absent => loadLive env st false

/-- Whether the in-memory cache short-circuits the call:
`CACHED_WEATHER_DATA and (current_time - LAST_FETCH_TIME < CACHE_DURATION)`. -/
def cacheFresh (env : WebEnv) (st : WebState) : Bool :=
  (match st.cachedWeatherData with
   | some v => pyBool v
   | none => false) &&
    decide (env.now - st.lastFetchTime < CACHE_DURATION)

/-- `load_weather_data` (web.py 69-157): fresh in-memory cache, else file,
else live fetch, else the terminal no-data error. -/
def loadWeatherData (env : WebEnv) (st : WebState) : LoadResult :=
  if cacheFresh env st then
    ⟨Except.ok (cacheAnnotated st), ⟨some (cacheAnnotated st), st.lastFetchTime⟩,
     false, false⟩
  else loadFromFile env st

/-! ## Hybrid two-model merge (Forecast Fetcher) -/

/-- A per-timestamp record of nullable numeric parameter values. -/
abbrev WRec := List (String × Option ℚ)

/-- Modelled from the spec: `fetch_weather_for_location` — the deployed
fetcher whose hybrid merge combines the primary high-resolution model with
the wide-coverage fallback model — is not among the provided sources (only
its callers in web.py and api/cron.py are).  Per spec §4.1, the merged
record takes, for each parameter, the primary model's value whenever it is
non-null, and the fallback's value otherwise. -/
def mergeRecord (prec frec : WRec) : WRec :=
  prec.foldl (fun acc p =>
    match p.2 with
    | some x => setKey acc p.1 (some x)
    | none => acc) frec

/-- Modelled from the spec: the hybrid merge of `fetch_weather_for_location`
(not under the provided sources).  Per spec §4.1, the output is keyed by
every timestamp of the fallback response, in the fallback's order; for
timestamps the primary also covers, non-null primary parameter values
overwrite the fallback's; timestamps absent from the fallback are dropped
even if present in the primary. -/
def hybridMerge (primary fallback : List (String × WRec)) : List (String × WRec) :=
  fallback.map (fun p =>
    (p.1, match lookupKey primary p.1 with
          | some prec => mergeRecord prec p.2
          | none => p.2))


/-! ## Properties of the flight-hour filter and the day grouping -/

theorem hasKey_filter_keyPred (l : List (String × γ)) (q : String → Bool) (k : String) :
    hasKey (l.filter (fun p => q p.1)) k = (hasKey l k && q k) := by
  induction l with
  | nil => simp [hasKey, lookupKey]
  | cons p rest ih =>
    by_cases hp : p.1 = k
    · cases hq : q p.1 with
      | false =>
        have hfil : (p :: rest).filter (fun x => q x.1) = rest.filter (fun x => q x.1) := by
          simp [List.filter_cons, hq]
        have hqk : q k = false := by rw [← hp]; exact hq
        rw [hfil, ih, hqk]
        simp
      | true =>
        have hfil : (p :: rest).filter (fun x => q x.1) =
            p :: rest.filter (fun x => q x.1) := by
          simp [List.filter_cons, hq]
        have hqk : q k = true := by rw [← hp]; exact hq
        rw [hfil, hqk]
        simp [hasKey, lookupKey, hp]
    · have hhd : hasKey (p :: rest) k = hasKey rest k := by
        simp [hasKey, lookupKey, hp]
      cases hq : q p.1 with
      | false =>
        have hfil : (p :: rest).filter (fun x => q x.1) = rest.filter (fun x => q x.1) := by
          simp [List.filter_cons, hq]
        rw [hfil, ih, hhd]
      | true =>
        have hfil : (p :: rest).filter (fun x => q x.1) =
            p :: rest.filter (fun x => q x.1) := by
          simp [List.filter_cons, hq]
        rw [hfil]
        have hskip : hasKey (p :: rest.filter (fun x => q x.1)) k =
            hasKey (rest.filter (fun x => q x.1)) k := by
          simp [hasKey, lookupKey, hp]
        rw [hskip, ih, hhd]

theorem hasKey_filterFlightHours (hd : JObj) (s e : Nat) (ts : String) :
    hasKey (filterFlightHours hd s e) ts = (hasKey hd ts && tsInWindow ts s e) :=
  hasKey_filter_keyPred hd (fun k => tsInWindow k s e) ts

/-- Claim C4: for every hourly series and configured bounds, a parsable
timestamp is retained by the flight-hour filter iff it lies in the series
and its hour `h` satisfies `start_hour ≤ h < end_hour` (end exclusive). -/
theorem C4_flight_hour_filter (hd : JObj) (s e : Nat) (ts : String) (t : TsVal)
    (hts : parseTs ts = some t) :
    hasKey (filterFlightHours hd s e) ts = true ↔
      hasKey hd ts = true ∧ s ≤ t.hour ∧ t.hour < e := by
  rw [hasKey_filterFlightHours]
  have hw : tsInWindow ts s e = (decide (s ≤ t.hour) && decide (t.hour < e)) := by
    simp [tsInWindow, hts]
  rw [hw]
  constructor
  · intro h
    rcases Bool.and_eq_true_iff.mp h with ⟨h1, h2⟩
    rcases Bool.and_eq_true_iff.mp h2 with ⟨h3, h4⟩
    exact ⟨h1, of_decide_eq_true h3, of_decide_eq_true h4⟩
  · intro hc
    rw [hc.1]
    simp [hc.2.1, hc.2.2]

/-- The [9,18) scenario of claim C4: hours 8, 9, 17, 18 → only 9 and 17
retained; the retention of hour 9 is obtained through
`C4_flight_hour_filter`. -/
theorem C4_flight_hour_filter_witness :
    filterFlightHours
      [("2026-01-01T08:00", JVal.null), ("2026-01-01T09:00", JVal.null),
       ("2026-01-01T17:00", JVal.null), ("2026-01-01T18:00", JVal.null)] 9 18 =
      [("2026-01-01T09:00", JVal.null), ("2026-01-01T17:00", JVal.null)] ∧
    hasKey (filterFlightHours
      [("2026-01-01T08:00", JVal.null), ("2026-01-01T09:00", JVal.null),
       ("2026-01-01T17:00", JVal.null), ("2026-01-01T18:00", JVal.null)] 9 18)
      "2026-01-01T09:00" = true :=
  ⟨rfl,
   (C4_flight_hour_filter _ 9 18 "2026-01-01T09:00" ⟨"2026-01-01", 9⟩
     (by decide)).mpr ⟨by decide, by decide, by decide⟩⟩

theorem lookupKey_map_isSome (acc : List (String × γ)) (f : String × γ → String × γ)
    (hf : ∀ p, (f p).1 = p.1) (k : String) :
    (lookupKey (acc.map f) k).isSome = (lookupKey acc k).isSome := by
  induction acc with
  | nil => rfl
  | cons p rest ih =>
    by_cases hp : p.1 = k
    · simp [lookupKey, hf p, hp]
    · simp [lookupKey, hf p, hp, ih]

theorem hasKey_addToDay (acc : List (String × JObj)) (dk ts k : String) (v : JVal) :
    hasKey (addToDay acc dk ts v) k = (hasKey acc k || decide (k = dk)) := by
  unfold addToDay
  by_cases hh : hasKey acc dk = true
  · rw [if_pos hh]
    have hmap : hasKey (acc.map (fun p => if p.1 = dk then (p.1, p.2 ++ [(ts, v)]) else p)) k
        = hasKey acc k := by
      unfold hasKey
      exact lookupKey_map_isSome acc _ (fun p => by
        by_cases hp : p.1 = dk
        · simp [hp]
        · simp [hp]) k
    rw [hmap]
    by_cases hk : k = dk
    · rw [hk] at *
      simp [hh]
    · simp [hk]
  · rw [if_neg hh]
    unfold hasKey
    cases hv : lookupKey acc k with
    | some w =>
      rw [lookupKey_append_some _ _ _ _ hv]
      simp
    | none =>
      rw [lookupKey_append_none _ _ _ hv]
      by_cases hk : k = dk
      · simp [lookupKey, hk]
      · have : ¬(dk = k) := fun hh2 => hk hh2.symm
        simp [lookupKey, this, hk]

theorem hasKey_buildDays_mono (hd : JObj) (acc : List (String × JObj)) (dk : String)
    (h : hasKey acc dk = true) : hasKey (buildDays hd acc) dk = true := by
  induction hd generalizing acc with
  | nil => exact h
  | cons p rest ih =>
    unfold buildDays
    cases hp : parseTs p.1 with
    | none => exact ih acc h
    | some t =>
      refine ih _ ?_
      rw [hasKey_addToDay]
      simp [h]

theorem hasKey_buildDays_of_mem (hd : JObj) (acc : List (String × JObj))
    (ts : String) (t : TsVal) (hts : parseTs ts = some t)
    (hmem : hasKey hd ts = true) : hasKey (buildDays hd acc) t.date = true := by
  induction hd generalizing acc with
  | nil => simp [hasKey, lookupKey] at hmem
  | cons p rest ih =>
    unfold buildDays
    by_cases hp : p.1 = ts
    · rw [hp, hts]
      refine hasKey_buildDays_mono rest _ t.date ?_
      rw [hasKey_addToDay]
      simp
    · have hmem' : hasKey rest ts = true := by
        simpa [hasKey, lookupKey, hp] using hmem
      cases hq : parseTs p.1 with
      | none => exact ih _ hmem'
      | some t' => exact ih _ hmem'

theorem hasKey_groupByDays (hd pl : JObj) (s e : Nat) (dk : String) :
    hasKey (groupByDays hd pl s e) dk = hasKey (buildDays hd []) dk := by
  unfold groupByDays hasKey
  dsimp only
  exact lookupKey_map_isSome (buildDays hd [])
    (fun p => (p.1, setKey (filterFlightHours p.2 s e) "_pressure_levels"
      (JVal.jobj ((lookupKey (buildDays pl []) p.1).getD [])))) (fun p => rfl) dk

/-- Claim C7: every calendar date occurring among the parsable timestamps of
the input hourly series appears as a key of the segmenter's output — also
when none of the date's hours survive the flight-hour window. -/
theorem C7_day_grouping_complete (hd pl : JObj) (s e : Nat) (ts : String)
    (t : TsVal) (hts : parseTs ts = some t) (hmem : hasKey hd ts = true) :
    hasKey (groupByDays hd pl s e) t.date = true := by
  rw [hasKey_groupByDays]
  exact hasKey_buildDays_of_mem hd [] ts t hts hmem

/-- A day whose only timestamp (hour 20) lies outside the [9,18) window is
still present, as an empty `DayWindow` holding only the reserved
pressure-level entry; the presence of the date key is obtained through
`C7_day_grouping_complete`. -/
theorem C7_day_grouping_complete_witness :
    groupByDays [("2026-01-02T20:00", JVal.null)] [] 9 18 =
      [("2026-01-02", [("_pressure_levels", JVal.jobj [])])] ∧
    hasKey (groupByDays [("2026-01-02T20:00", JVal.null)] [] 9 18)
      "2026-01-02" = true :=
  ⟨rfl,
   C7_day_grouping_complete [("2026-01-02T20:00", JVal.null)] [] 9 18
     "2026-01-02T20:00" ⟨"2026-01-02", 20⟩ (by decide) (by decide)⟩

/-! ## Properties of the hybrid merge -/

theorem lookupKey_eq_none_of_not_mem_keys (l : List (String × γ)) (k : String)
    (h : k ∉ l.map Prod.fst) : lookupKey l k = none := by
  induction l with
  | nil => rfl
  | cons p rest ih =>
    simp only [List.map_cons, List.mem_cons] at h
    push_neg at h
    have hp : ¬(p.1 = k) := fun hh => h.1 hh.symm
    simp only [lookupKey, hp, if_false]
    exact ih h.2

theorem lookupKey_hybridMerge (primary fallback : List (String × WRec)) (ts : String) :
    lookupKey (hybridMerge primary fallback) ts =
      (lookupKey fallback ts).map (fun frec =>
        match lookupKey primary ts with
        | some prec => mergeRecord prec frec
        | none => frec) := by
  induction fallback with
  | nil => rfl
  | cons p rest ih =>
    by_cases hp : p.1 = ts
    · simp only [hybridMerge, List.map_cons, lookupKey, hp, if_true]
      rfl
    · simp only [hybridMerge, List.map_cons, lookupKey, hp, if_false]
      simpa [hybridMerge] using ih

theorem lookupKey_mergeRecord (prec : WRec) (frec : WRec) (param : String)
    (hnd : (prec.map Prod.fst).Nodup) :
    lookupKey (mergeRecord prec frec) param =
      (match lookupKey prec param with
       | some (some x) => some (some x)
       | _ => lookupKey frec param) := by
  induction prec generalizing frec with
  | nil => rfl
  | cons p ps ih =>
    obtain ⟨k0, v0⟩ := p
    simp only [List.map_cons, List.nodup_cons] at hnd
    have hstep : mergeRecord ((k0, v0) :: ps) frec =
        mergeRecord ps (match v0 with
          | some x => setKey frec k0 (some x)
          | none => frec) := by
      cases v0 <;> rfl
    rw [hstep]
    by_cases hp : k0 = param
    · subst hp
      have hps : lookupKey ps k0 = none :=
        lookupKey_eq_none_of_not_mem_keys ps k0 hnd.1
      cases v0 with
      | some x =>
        rw [ih _ hnd.2, hps, lookupKey_setKey_self]
        simp [lookupKey]
      | none =>
        rw [ih _ hnd.2, hps]
        simp [lookupKey]
    · cases v0 with
      | some x =>
        rw [ih _ hnd.2, lookupKey_setKey_ne frec (some x) (fun hh => hp hh.symm)]
        simp only [lookupKey, hp, if_false]
      | none =>
        rw [ih _ hnd.2]
        simp only [lookupKey, hp, if_false]

/-- Claim C1 (merge modelled from the spec; `fetch_weather_for_location` is
not among the provided sources): for a timestamp in both responses the
merged value of a parameter is the primary's value when non-null and the
fallback's value otherwise; a timestamp only in the fallback keeps the
fallback record unchanged; a timestamp absent from the fallback never
appears in the merged output. -/
theorem C1_hybrid_merge (primary fallback : List (String × WRec)) (ts param : String) :
    (∀ frec prec, lookupKey fallback ts = some frec →
      lookupKey primary ts = some prec → (prec.map Prod.fst).Nodup →
      lookupKey (hybridMerge primary fallback) ts = some (mergeRecord prec frec) ∧
      lookupKey (mergeRecord prec frec) param =
        (match lookupKey prec param with
         | some (some x) => some (some x)
         | _ => lookupKey frec param)) ∧
    (∀ frec, lookupKey fallback ts = some frec → lookupKey primary ts = none →
      lookupKey (hybridMerge primary fallback) ts = some frec) ∧
    (lookupKey fallback ts = none →
      lookupKey (hybridMerge primary fallback) ts = none) := by
  refine ⟨?_, ?_, ?_⟩
  · intro frec prec hf hpm hnd
    constructor
    · rw [lookupKey_hybridMerge, hf, hpm]
      rfl
    · exact lookupKey_mergeRecord prec frec param hnd
  · intro frec hf hpm
    rw [lookupKey_hybridMerge, hf, hpm]
    rfl
  · intro hf
    rw [lookupKey_hybridMerge, hf]
    rfl

/-- The scenario of claim C1: primary covers 09:00 with 5.0, fallback covers
09:00 (4.0) and 10:00 (6.0); the merge keeps exactly the fallback's two
timestamps, with 5.0 at 09:00 (primary wins) and 6.0 at 10:00 (fallback
only).  The value at 09:00 is obtained through `C1_hybrid_merge`. -/
theorem C1_hybrid_merge_witness :
    hybridMerge [("2026-01-01T09:00", [("temperature_2m", some (5 : ℚ))])]
      [("2026-01-01T09:00", [("temperature_2m", some (4 : ℚ))]),
       ("2026-01-01T10:00", [("temperature_2m", some (6 : ℚ))])] =
      [("2026-01-01T09:00", [("temperature_2m", some (5 : ℚ))]),
       ("2026-01-01T10:00", [("temperature_2m", some (6 : ℚ))])] ∧
    lookupKey (hybridMerge [("2026-01-01T09:00", [("temperature_2m", some (5 : ℚ))])]
      [("2026-01-01T09:00", [("temperature_2m", some (4 : ℚ))]),
       ("2026-01-01T10:00", [("temperature_2m", some (6 : ℚ))])])
      "2026-01-01T09:00" =
      some (mergeRecord [("temperature_2m", some (5 : ℚ))]
        [("temperature_2m", some (4 : ℚ))]) :=
  ⟨by decide,
   ((C1_hybrid_merge [("2026-01-01T09:00", [("temperature_2m", some (5 : ℚ))])]
      [("2026-01-01T09:00", [("temperature_2m", some (4 : ℚ))]),
       ("2026-01-01T10:00", [("temperature_2m", some (6 : ℚ))])]
      "2026-01-01T09:00" "temperature_2m").1
      [("temperature_2m", some (4 : ℚ))] [("temperature_2m", some (5 : ℚ))]
      (by decide) (by decide) (by decide)).1⟩

/-! ## Properties of the retry loop -/

/-- Claim C5: when every attempt is answered with HTTP 429, the client
makes exactly `max_retries = 3` attempts, then raises the terminal failure;
the recorded sleeps are `retry_delay * 2^attempt * 2` and strictly
increase. -/
theorem C5_rate_limit_retry_bound (resp : Nat → HttpResp)
    (b0 b1 b2 : JVal) (t0 t1 t2 : String)
    (h0 : resp 0 = HttpResp.http 429 b0 t0)
    (h1 : resp 1 = HttpResp.http 429 b1 t1)
    (h2 : resp 2 = HttpResp.http 429 b2 t2) :
    analyzeWithLlm resp =
      ⟨Except.error (failAllMsg none), maxRetries,
       [retryDelay * 2 ^ 0 * 2, retryDelay * 2 ^ 1 * 2, retryDelay * 2 ^ 2 * 2]⟩ ∧
    List.Chain' (· < ·) (analyzeWithLlm resp).sleeps := by
  have hrange : List.range maxRetries = [0, 1, 2] := rfl
  have hmain : analyzeWithLlm resp =
      ⟨Except.error (failAllMsg none), maxRetries,
       [retryDelay * 2 ^ 0 * 2, retryDelay * 2 ^ 1 * 2, retryDelay * 2 ^ 2 * 2]⟩ := by
    unfold analyzeWithLlm
    rw [hrange]
    simp [llmLoop, h0, h1, h2, maxRetries]
  refine ⟨hmain, ?_⟩
  rw [hmain]
  norm_num [List.chain'_cons, List.chain'_singleton, retryDelay]

/-- Retry-bound scenario: a client always answering 429 leads to exactly 3
attempts, a raised error and the sleeps 2, 4, 8; obtained through
`C5_rate_limit_retry_bound`. -/
theorem C5_rate_limit_retry_bound_witness :
    (analyzeWithLlm (fun _ => HttpResp.http 429 JVal.null "")).attempts = maxRetries ∧
    (analyzeWithLlm (fun _ => HttpResp.http 429 JVal.null "")).sleeps = [2, 4, 8] ∧
    (analyzeWithLlm (fun _ => HttpResp.http 429 JVal.null "")).result =
      Except.error (failAllMsg none) := by
  have h := (C5_rate_limit_retry_bound (fun _ => HttpResp.http 429 JVal.null "")
    JVal.null JVal.null JVal.null "" "" "" rfl rfl rfl).1
  rw [h]
  exact ⟨rfl, rfl, rfl⟩

/-- Claim C6: an HTTP 401 answer on the first attempt raises the auth error
immediately: one request, no further attempts, no backoff sleep. -/
theorem C6_auth_failure_immediate (resp : Nat → HttpResp) (b : JVal) (t : String)
    (h0 : resp 0 = HttpResp.http 401 b t) :
    analyzeWithLlm resp = ⟨Except.error (auth401Msg t), 1, []⟩ := by
  unfold analyzeWithLlm
  rw [show List.range maxRetries = [0, 1, 2] from rfl]
  simp [llmLoop, h0]

/-- A client answering 401 at once: the call raises the auth message after a
single attempt with no sleeps; obtained through
`C6_auth_failure_immediate`. -/
theorem C6_auth_failure_immediate_witness :
    analyzeWithLlm (fun _ => HttpResp.http 401 JVal.null "bad key") =
      ⟨Except.error (auth401Msg "bad key"), 1, []⟩ :=
  C6_auth_failure_immediate (fun _ => HttpResp.http 401 JVal.null "bad key")
    JVal.null "bad key" rfl

/-! ## Properties of the data-availability chain -/

/-- The file step succeeds: the weather file is a readable dict with a
matching location key. -/
def fileHit (env : WebEnv) : Bool :=
  match env.weatherFile with
  | FileState.content d => (findLocation d).isSome
  | _ => false

/-- The live-fetch step succeeds: the fetcher is importable, returns a
non-empty dict, and that dict has a matching location key. -/
def fetchHit (env : WebEnv) : Bool :=
  env.fetchAvailable &&
    (match env.fetch with
     | FetchOutcome.returns (some l) => !l.isEmpty && (findLocation l).isSome
     | _ => false)

/-- Whether step 2 opened the file (it exists, readable or not). -/
def fileWasChecked (env : WebEnv) : Bool :=
  match env.weatherFile with
  | FileState.absent => false
  | _ => true

theorem loadLive_error_iff (env : WebEnv) (st : WebState) (r : Bool) :
    ((loadLive env st r).outcome = Except.error noDataMsg ↔ fetchHit env = false) := by
  unfold loadLive fetchHit
  by_cases hav : env.fetchAvailable
  · simp only [hav, if_true, Bool.true_and]
    cases hf : env.fetch with
    | raises => simp
    | returns d =>
      cases d with
      | none => simp
      | some l =>
        by_cases he : l.isEmpty
        · simp [he]
        · cases hlv : findLocation l with
          | none => simp [he, hlv]
          | some v => simp [he, hlv]
  · simp [hav]

theorem loadFromFile_error_iff (env : WebEnv) (st : WebState) :
    ((loadFromFile env st).outcome = Except.error noDataMsg ↔
      fileHit env = false ∧ fetchHit env = false) := by
  unfold loadFromFile fileHit
  cases hw : env.weatherFile with
  | content d =>
    cases hl : findLocation d with
    | some v => simp [hl]
    | none => simp [hl, loadLive_error_iff env st true]
  | corrupt => simp [loadLive_error_iff env st true]
  | absent => simp [loadLive_error_iff env st false]

/-- Claim C8: the read path returns the fresh in-memory cache with no file
or network access; otherwise a successfully located file entry is cached at
the current time and returned without fetching; otherwise a successful live
fetch is cached and returned; and the terminal no-data error is raised
exactly when all three steps fail. -/
theorem C8_data_availability_chain (env : WebEnv) (st : WebState) :
    (cacheFresh env st = true →
      loadWeatherData env st =
        ⟨Except.ok (cacheAnnotated st), ⟨some (cacheAnnotated st), st.lastFetchTime⟩,
         false, false⟩) ∧
    (cacheFresh env st = false → ∀ d v, env.weatherFile = FileState.content d →
      findLocation d = some v →
      loadWeatherData env st =
        ⟨Except.ok (fileAnnotated env v), ⟨some (fileAnnotated env v), env.now⟩,
         true, false⟩) ∧
    (cacheFresh env st = false → fileHit env = false →
      env.fetchAvailable = true → ∀ l v, env.fetch = FetchOutcome.returns (some l) →
      l.isEmpty = false → findLocation l = some v →
      loadWeatherData env st =
        ⟨Except.ok (liveAnnotated v), ⟨some (liveAnnotated v), env.now⟩,
         fileWasChecked env, true⟩) ∧
    ((loadWeatherData env st).outcome = Except.error noDataMsg ↔
      cacheFresh env st = false ∧ fileHit env = false ∧ fetchHit env = false) := by
  refine ⟨?_, ?_, ?_, ?_⟩
  · intro hc
    unfold loadWeatherData
    rw [if_pos hc]
  · intro hc d v hw hl
    unfold loadWeatherData
    rw [if_neg (by simp [hc])]
    unfold loadFromFile
    rw [hw]
    simp [hl]
  · intro hc hfile hav l v hf he hl
    unfold loadWeatherData
    rw [if_neg (by simp [hc])]
    have hlive : ∀ r, loadLive env st r =
        ⟨Except.ok (liveAnnotated v), ⟨some (liveAnnotated v), env.now⟩, r, true⟩ := by
      intro r
      unfold loadLive
      rw [if_pos hav, hf]
      simp [he, hl]
    unfold loadFromFile
    cases hw : env.weatherFile with
    | content d =>
      have hwc : fileWasChecked env = true := by unfold fileWasChecked; rw [hw]
      have hfl : (findLocation d).isSome = false := by
        unfold fileHit at hfile
        rw [hw] at hfile
        simpa using hfile
      have hnone : findLocation d = none := by
        cases hld : findLocation d with
        | some w => rw [hld] at hfl; simp at hfl
        | none => rfl
      rw [hwc]
      simp only [hnone]
      exact hlive true
    | corrupt =>
      have hwc : fileWasChecked env = true := by unfold fileWasChecked; rw [hw]
      rw [hwc]
      exact hlive true
    | absent =>
      have hwc : fileWasChecked env = false := by unfold fileWasChecked; rw [hw]
      rw [hwc]
      exact hlive false
  · by_cases hc : cacheFresh env st
    · unfold loadWeatherData
      rw [if_pos hc]
      simp [hc]
    · unfold loadWeatherData
      rw [if_neg hc]
      rw [loadFromFile_error_iff env st]
      simp [Bool.not_eq_true] at hc
      simp [hc]

/-- All-fail scenario (stale cache, absent file, fetch unavailable): the
chain raises the terminal no-data error; obtained through the final
conjunct of `C8_data_availability_chain`. -/
theorem C8_data_availability_chain_witness :
    (loadWeatherData ⟨1000, FileState.absent, "/tmp/wetterdaten.json", false,
      FetchOutcome.raises⟩ ⟨none, 0⟩).outcome = Except.error noDataMsg :=
  (C8_data_availability_chain ⟨1000, FileState.absent, "/tmp/wetterdaten.json",
    false, FetchOutcome.raises⟩ ⟨none, 0⟩).2.2.2.mpr ⟨rfl, rfl, rfl⟩

/-! ## Properties of the per-day orchestration -/

theorem map_eq_on {l : List α} {f g : α → γ} (h : ∀ a ∈ l, f a = g a) :
    l.map f = l.map g := by
  induction l with
  | nil => rfl
  | cons a as ih =>
    simp only [List.map_cons, h a (List.mem_cons_self a as)]
    rw [ih (fun b hb => h b (List.mem_cons_of_mem _ hb))]

theorem lookupKey_analyzeDay_date (llm : JObj → Except String JObj)
    (nowTs : String) (dayData : JObj) (date : String) :
    lookupKey (analyzeDay llm nowTs dayData date) "date" = some (JVal.jstr date) := by
  unfold analyzeDay
  dsimp only
  cases llm (locationData (delKey dayData "_pressure_levels")
      ((lookupKey dayData "_pressure_levels").getD (JVal.jobj [])) date) with
  | ok result =>
    rw [lookupKey_setKey_ne _ _ (show "date" ≠ "timestamp" by decide)]
    exact lookupKey_setKey_self _ _ _
  | error e => rfl

/-- Claim C3: the batch holds exactly one verdict per processed date
(`min FORECAST_DAYS` of the grouped dates), the processed dates are sorted
chronologically and truncated to the forecast-day count, every verdict is
stamped with its date, and a day whose prompt/LLM step raises is replaced by
the synthetic DANGEROUS zero-confidence verdict carrying the error text in
the risk detail — never aborting the batch. -/
theorem C3_per_day_failure_isolation (llm : JObj → Except String JObj)
    (nowTs : String) (daysData : List (String × JObj)) :
    (analyzeAllDays llm nowTs daysData).length = min FORECAST_DAYS daysData.length ∧
    List.Pairwise strLe (targetDates daysData) ∧
    (analyzeAllDays llm nowTs daysData).map (fun r => lookupKey r "date") =
      (targetDates daysData).map (fun d => some (JVal.jstr d)) ∧
    (∀ dayData date e,
      llm (locationData (delKey dayData "_pressure_levels")
        ((lookupKey dayData "_pressure_levels").getD (JVal.jobj [])) date) =
        Except.error e →
      analyzeDay llm nowTs dayData date = syntheticVerdict e nowTs date) ∧
    (∀ e n d2,
      lookupKey (syntheticVerdict e n d2) "conditions" = some (JVal.jstr "DANGEROUS") ∧
      lookupKey (syntheticVerdict e n d2) "confidence" = some (JVal.jint 0) ∧
      lookupKey (syntheticVerdict e n d2) "details" =
        some (JVal.jobj [("wind", JVal.jstr ""), ("thermik", JVal.jstr ""),
          ("risks", JVal.jstr ("Systemfehler: " ++ e))]) ∧
      lookupKey [("wind", JVal.jstr ""), ("thermik", JVal.jstr ""),
          ("risks", JVal.jstr ("Systemfehler: " ++ e))] "risks" =
        some (JVal.jstr ("Systemfehler: " ++ e))) := by
  refine ⟨?_, ?_, ?_, ?_, ?_⟩
  · unfold analyzeAllDays targetDates
    rw [List.length_map, List.length_take, length_sortedStrings, List.length_map]
  · unfold targetDates
    exact List.Pairwise.sublist (List.take_sublist _ _) (sorted_sortedStrings _)
  · unfold analyzeAllDays
    rw [List.map_map]
    exact map_eq_on (fun date _ => lookupKey_analyzeDay_date llm nowTs _ date)
  · intro dayData date e h
    unfold analyzeDay
    dsimp only
    rw [h]
  · intro e n d2
    exact ⟨rfl, rfl, rfl, rfl⟩

/-- A four-day batch whose LLM step always raises: the theorem gives three
verdicts (dates sorted and truncated to `FORECAST_DAYS = 3`) and each day's
synthetic substitute; obtained through `C3_per_day_failure_isolation`. -/
theorem C3_per_day_failure_isolation_witness :
    targetDates [("2026-01-04", []), ("2026-01-02", []), ("2026-01-03", []),
      ("2026-01-01", [])] = ["2026-01-01", "2026-01-02", "2026-01-03"] ∧
    (analyzeAllDays (fun _ => Except.error "boom") "2026-01-01T12:00:00"
      [("2026-01-04", []), ("2026-01-02", []), ("2026-01-03", []),
       ("2026-01-01", [])]).length = 3 ∧
    analyzeDay (fun _ => Except.error "boom") "2026-01-01T12:00:00" [] "2026-01-01" =
      syntheticVerdict "boom" "2026-01-01T12:00:00" "2026-01-01" := by
  refine ⟨rfl, ?_, ?_⟩
  · rw [(C3_per_day_failure_isolation (fun _ => Except.error "boom")
      "2026-01-01T12:00:00" [("2026-01-04", []), ("2026-01-02", []),
      ("2026-01-03", []), ("2026-01-01", [])]).1]
    rfl
  · exact (C3_per_day_failure_isolation (fun _ => Except.error "boom")
      "2026-01-01T12:00:00" []).2.2.2.1 [] "2026-01-01" "boom" rfl

/-! ## Stage lemmas for the verdict normalization -/

theorem lookupKey_ensureKey_self (x : JObj) (k : String) (v : JVal) :
    lookupKey (ensureKey x k v) k = some ((lookupKey x k).getD v) := by
  unfold ensureKey
  by_cases h : hasKey x k = true
  · rw [if_pos h]
    cases hv : lookupKey x k with
    | none => simp [hasKey, hv] at h
    | some w => rfl
  · rw [if_neg h, lookupKey_setKey_self]
    cases hv : lookupKey x k with
    | none => rfl
    | some w => simp [hasKey, hv] at h

theorem lookupKey_ensureKey_ne (x : JObj) {k k' : String} (v : JVal)
    (h : k' ≠ k) : lookupKey (ensureKey x k v) k' = lookupKey x k' := by
  unfold ensureKey
  by_cases hh : hasKey x k = true
  · rw [if_pos hh]
  · rw [if_neg hh, lookupKey_setKey_ne x v h]

theorem ensureKey_of_hasKey {x : JObj} {k : String} (v : JVal)
    (h : hasKey x k = true) : ensureKey x k v = x := by
  unfold ensureKey
  rw [if_pos h]

theorem hasKey_ensureKey_self (x : JObj) (k : String) (v : JVal) :
    hasKey (ensureKey x k v) k = true := by
  simp [hasKey, lookupKey_ensureKey_self]

theorem ensureKey_entries {x : JObj} {k : String} {v : JVal} :
    ∀ p ∈ ensureKey x k v, p.1 = k → (p.2 = v ∨ p ∈ x) := by
  intro p hp hk
  unfold ensureKey at hp
  by_cases hh : hasKey x k = true
  · rw [if_pos hh] at hp
    exact Or.inr hp
  · rw [if_neg hh] at hp
    rcases mem_setKey hp with hp | hp
    · rw [hp]
      exact Or.inl rfl
    · exact Or.inr hp

theorem lookupKey_ensureDetails_ne (x : JObj) {k : String} (h : k ≠ "details") :
    lookupKey (ensureDetails x) k = lookupKey x k := by
  unfold ensureDetails
  cases hv : lookupKey x "details" with
  | none => rw [lookupKey_setKey_ne x _ h]
  | some w =>
    cases w with
    | jobj d => rfl
    | null => rw [lookupKey_setKey_ne x _ h]
    | jbool b => rw [lookupKey_setKey_ne x _ h]
    | jint n => rw [lookupKey_setKey_ne x _ h]
    | jstr s => rw [lookupKey_setKey_ne x _ h]
    | jarr a => rw [lookupKey_setKey_ne x _ h]

theorem ensureDetails_of_obj {x : JObj} {d0 : JObj}
    (h : lookupKey x "details" = some (JVal.jobj d0)) : ensureDetails x = x := by
  unfold ensureDetails
  rw [h]

theorem lookupKey_ensureDetails_obj (x : JObj) :
    ∃ d, lookupKey (ensureDetails x) "details" = some (JVal.jobj d) ∧
      (∀ d0, lookupKey x "details" = some (JVal.jobj d0) → d = d0) ∧
      (hasKey x "details" = false → d = []) := by
  unfold ensureDetails
  cases hv : lookupKey x "details" with
  | none =>
    refine ⟨[], lookupKey_setKey_self x _ _, ?_, fun _ => rfl⟩
    intro d0 h0
    exact absurd h0 (by simp)
  | some w =>
    cases w with
    | jobj d =>
      refine ⟨d, hv, ?_, ?_⟩
      · intro d0 h0
        exact JVal.jobj.inj (Option.some.inj h0)
      · intro hk
        simp [hasKey, hv] at hk
    | null =>
      refine ⟨[], lookupKey_setKey_self x _ _, ?_, fun _ => rfl⟩
      intro d0 h0
      exact absurd h0 (by simp)
    | jbool b =>
      refine ⟨[], lookupKey_setKey_self x _ _, ?_, fun _ => rfl⟩
      intro d0 h0
      exact absurd h0 (by simp)
    | jint n =>
      refine ⟨[], lookupKey_setKey_self x _ _, ?_, fun _ => rfl⟩
      intro d0 h0
      exact absurd h0 (by simp)
    | jstr s =>
      refine ⟨[], lookupKey_setKey_self x _ _, ?_, fun _ => rfl⟩
      intro d0 h0
      exact absurd h0 (by simp)
    | jarr a =>
      refine ⟨[], lookupKey_setKey_self x _ _, ?_, fun _ => rfl⟩
      intro d0 h0
      exact absurd h0 (by simp)

theorem lookupKey_fillDetailField_ne (x : JObj) (kk : String) {k : String}
    (h : k ≠ "details") :
    lookupKey (fillDetailField x kk) k = lookupKey x k := by
  unfold fillDetailField
  dsimp only
  by_cases hh : hasKey (detailsObj x) kk = true
  · rw [if_pos hh]
  · rw [if_neg hh, lookupKey_setKey_ne x _ h]

theorem fillDetailField_of_hasKey {x : JObj} {d : JObj} {kk : String}
    (hd : lookupKey x "details" = some (JVal.jobj d)) (h : hasKey d kk = true) :
    fillDetailField x kk = x := by
  unfold fillDetailField
  dsimp only
  have hobj : detailsObj x = d := by unfold detailsObj; rw [hd]
  rw [hobj, if_pos h]

theorem lookupKey_fillDetailField_details {x : JObj} {d : JObj} (kk : String)
    (hd : lookupKey x "details" = some (JVal.jobj d)) :
    lookupKey (fillDetailField x kk) "details" =
      some (JVal.jobj (if hasKey d kk then d
        else setKey d kk (JVal.jstr "Nicht verfügbar"))) := by
  unfold fillDetailField
  dsimp only
  have hobj : detailsObj x = d := by unfold detailsObj; rw [hd]
  rw [hobj]
  by_cases hh : hasKey d kk = true
  · rw [if_pos hh, if_pos hh, hd]
  · rw [if_neg hh, if_neg hh, lookupKey_setKey_self]

theorem coerceStage_spec (x : JObj) (rat conf : Int) (c : String)
    (hrat : pyInt ((lookupKey x "rating").getD (JVal.jint 0)) = some rat)
    (hconf : pyInt ((lookupKey x "confidence").getD (JVal.jint 0)) = some conf)
    (hcond : pyStr ((lookupKey x "conditions").getD (JVal.jstr "UNKNOWN")) = some c) :
    coerceStage x = some (setKey (setKey (setKey (setKey x "flyable"
      (JVal.jbool (pyBool ((lookupKey x "flyable").getD (JVal.jbool false)))))
      "rating" (JVal.jint rat)) "confidence" (JVal.jint conf))
      "conditions" (JVal.jstr c)) := by
  unfold coerceStage
  dsimp only
  rw [lookupKey_setKey_ne x _ (show "rating" ≠ "flyable" by decide), hrat]
  dsimp only
  rw [lookupKey_setKey_ne _ _ (show "confidence" ≠ "rating" by decide),
    lookupKey_setKey_ne x _ (show "confidence" ≠ "flyable" by decide), hconf]
  dsimp only
  rw [lookupKey_setKey_ne _ _ (show "conditions" ≠ "confidence" by decide),
    lookupKey_setKey_ne _ _ (show "conditions" ≠ "rating" by decide),
    lookupKey_setKey_ne x _ (show "conditions" ≠ "flyable" by decide), hcond]

theorem hourlyStage_arr {x : JObj} {xs : List JVal} {v : List JVal}
    (h : lookupKey x "hourly_evaluations" = some (JVal.jarr xs))
    (hv : validateHourlyList xs = some v) :
    hourlyStage x = some (setKey x "hourly_evaluations" (JVal.jarr v)) := by
  unfold hourlyStage
  simp only [h, hv]

theorem hourlyStage_not_arr {x : JObj}
    (h : ∀ xs, lookupKey x "hourly_evaluations" ≠ some (JVal.jarr xs)) :
    hourlyStage x = some (setKey x "hourly_evaluations" (JVal.jarr [])) := by
  unfold hourlyStage
  cases hv : lookupKey x "hourly_evaluations" with
  | none => rfl
  | some w =>
    cases w with
    | jarr xs => exact absurd hv (h xs)
    | null => rfl
    | jbool b => rfl
    | jint n => rfl
    | jstr s => rfl
    | jobj o => rfl

theorem validateHourlyEntry_idem {h v : JObj}
    (hv : validateHourlyEntry h = some v) : validateHourlyEntry v = some v := by
  unfold validateHourlyEntry at hv
  cases h1 : pyInt ((lookupKey h "hour").getD (JVal.jint 0)) with
  | none => simp [h1] at hv
  | some hour =>
  simp only [h1] at hv
  cases h2 : pyStr ((lookupKey h "timestamp").getD (JVal.jstr "")) with
  | none => simp [h2] at hv
  | some ts =>
  simp only [h2] at hv
  cases h3 : pyStr ((lookupKey h "conditions").getD (JVal.jstr "UNKNOWN")) with
  | none => simp [h3] at hv
  | some cond =>
  simp only [h3] at hv
  cases h4 : pyInt ((lookupKey h "rating").getD (JVal.jint 0)) with
  | none => simp [h4] at hv
  | some rat =>
  simp only [h4] at hv
  cases h5 : pyStr ((lookupKey h "reason").getD (JVal.jstr "Keine Begründung")) with
  | none => simp [h5] at hv
  | some reason =>
  simp only [h5, Option.some.injEq] at hv
  subst hv
  have hcomp : validateHourlyEntry
      [("hour", JVal.jint hour), ("timestamp", JVal.jstr ts),
       ("conditions", JVal.jstr (pyUpper cond)),
       ("flyable", JVal.jbool (pyBool ((lookupKey h "flyable").getD (JVal.jbool false)))),
       ("rating", JVal.jint rat), ("reason", JVal.jstr reason)] =
      some [("hour", JVal.jint hour), ("timestamp", JVal.jstr ts),
       ("conditions", JVal.jstr (pyUpper (pyUpper cond))),
       ("flyable", JVal.jbool (pyBool ((lookupKey h "flyable").getD (JVal.jbool false)))),
       ("rating", JVal.jint rat), ("reason", JVal.jstr reason)] := rfl
  rw [hcomp, pyUpper_pyUpper]

theorem validateHourlyList_idem {xs v : List JVal}
    (hv : validateHourlyList xs = some v) : validateHourlyList v = some v := by
  induction xs generalizing v with
  | nil =>
    have : v = [] := (Option.some.inj hv).symm
    rw [this]
    rfl
  | cons x rest ih =>
    cases x with
    | jobj hobj =>
      unfold validateHourlyList at hv
      cases he : validateHourlyEntry hobj with
      | none => simp [he] at hv
      | some w =>
      simp only [he] at hv
      cases hr : validateHourlyList rest with
      | none => simp [hr] at hv
      | some vs =>
      simp only [hr, Option.some.injEq] at hv
      subst hv
      have hstep : validateHourlyList (JVal.jobj w :: vs) =
          match validateHourlyEntry w with
          | none => none
          | some w2 =>
            match validateHourlyList vs with
            | none => none
            | some vs2 => some (JVal.jobj w2 :: vs2) := rfl
      rw [hstep, validateHourlyEntry_idem he, ih hr]
    | null => exact ih hv
    | jbool b => exact ih hv
    | jint n => exact ih hv
    | jstr s => exact ih hv
    | jarr a => exact ih hv

/-- One placeholder-filling step on the details dict. -/
def fillStep (d : JObj) (k : String) : JObj :=
  if hasKey d k then d else setKey d k (JVal.jstr "Nicht verfügbar")

theorem lookupKey_fillDetailField_details_step {x : JObj} {d : JObj} (kk : String)
    (hd : lookupKey x "details" = some (JVal.jobj d)) :
    lookupKey (fillDetailField x kk) "details" = some (JVal.jobj (fillStep d kk)) :=
  lookupKey_fillDetailField_details kk hd

theorem hasKey_fillStep_self (d : JObj) (k : String) :
    hasKey (fillStep d k) k = true := by
  unfold fillStep
  by_cases h : hasKey d k = true
  · rw [if_pos h]
    exact h
  · rw [if_neg h]
    exact hasKey_setKey_self d k _

theorem hasKey_fillStep_ne (d : JObj) {k k' : String} (h : k' ≠ k) :
    hasKey (fillStep d k) k' = hasKey d k' := by
  unfold fillStep
  by_cases hh : hasKey d k = true
  · rw [if_pos hh]
  · rw [if_neg hh]
    exact hasKey_setKey_ne d _ h

theorem lookupKey_fillStep_preserve {d : JObj} {k2 : String} {w : JVal} (k : String)
    (h : lookupKey d k2 = some w) : lookupKey (fillStep d k) k2 = some w := by
  unfold fillStep
  by_cases hh : hasKey d k = true
  · rw [if_pos hh]
    exact h
  · rw [if_neg hh]
    have hne : k2 ≠ k := by
      intro he
      rw [he] at h
      simp [hasKey, h] at hh
    rw [lookupKey_setKey_ne d _ hne]
    exact h

theorem lookupKey_fillStep_absent {d : JObj} {k : String} (h : hasKey d k = false) :
    lookupKey (fillStep d k) k = some (JVal.jstr "Nicht verfügbar") := by
  unfold fillStep
  rw [if_neg (by simp [h]), lookupKey_setKey_self]

theorem lookupKey_fillStep_ne (d : JObj) {k k' : String} (h : k' ≠ k) :
    lookupKey (fillStep d k) k' = lookupKey d k' := by
  unfold fillStep
  by_cases hh : hasKey d k = true
  · rw [if_pos hh]
  · rw [if_neg hh]
    exact lookupKey_setKey_ne d _ h

theorem keyUniform_ensureKey_ne {o : JObj} {k k' : String} {v v' : JVal}
    (h : keyUniform o k v) (hne : k' ≠ k) : keyUniform (ensureKey o k' v') k v := by
  unfold ensureKey
  by_cases hh : hasKey o k' = true
  · rw [if_pos hh]
    exact h
  · rw [if_neg hh]
    exact keyUniform_setKey_ne h hne

theorem hasKey_ensureKey_ne (o : JObj) {k k' : String} (v : JVal) (h : k' ≠ k) :
    hasKey (ensureKey o k v) k' = hasKey o k' := by
  unfold ensureKey
  by_cases hh : hasKey o k = true
  · rw [if_pos hh]
  · rw [if_neg hh]
    exact hasKey_setKey_ne o v h

theorem fills_spec (r : JObj) :
    ∃ dR, lookupKey (stageOne r) "details" = some (JVal.jobj dR) ∧
      hasKey dR "wind" = true ∧ hasKey dR "thermik" = true ∧ hasKey dR "risks" = true ∧
      (∀ d0, lookupKey r "details" = some (JVal.jobj d0) →
        (∀ k2 w, lookupKey d0 k2 = some w → lookupKey dR k2 = some w) ∧
        (hasKey d0 "wind" = false →
          lookupKey dR "wind" = some (JVal.jstr "Nicht verfügbar")) ∧
        (hasKey d0 "thermik" = false →
          lookupKey dR "thermik" = some (JVal.jstr "Nicht verfügbar")) ∧
        (hasKey d0 "risks" = false →
          lookupKey dR "risks" = some (JVal.jstr "Nicht verfügbar"))) ∧
      (hasKey r "details" = false →
        dR = [("wind", JVal.jstr "Nicht verfügbar"),
              ("thermik", JVal.jstr "Nicht verfügbar"),
              ("risks", JVal.jstr "Nicht verfügbar")]) ∧
      lookupKey (stageOne r) "flyable" =
        some ((lookupKey r "flyable").getD (JVal.jbool false)) ∧
      (∀ k, k ≠ "flyable" → k ≠ "details" →
        lookupKey (stageOne r) k = lookupKey r k) := by
  obtain ⟨dB, hdB, hobj, habs⟩ := lookupKey_ensureDetails_obj (ensureFlyable r)
  have hdetEq : lookupKey (ensureFlyable r) "details" = lookupKey r "details" :=
    lookupKey_ensureKey_ne r _ (by decide)
  have hW := lookupKey_fillDetailField_details_step "wind" hdB
  have hT := lookupKey_fillDetailField_details_step "thermik" hW
  have hR := lookupKey_fillDetailField_details_step "risks" hT
  refine ⟨fillStep (fillStep (fillStep dB "wind") "thermik") "risks", hR,
    ?_, ?_, ?_, ?_, ?_, ?_, ?_⟩
  · rw [hasKey_fillStep_ne _ (by decide : ("wind" : String) ≠ "risks"),
      hasKey_fillStep_ne _ (by decide : ("wind" : String) ≠ "thermik")]
    exact hasKey_fillStep_self dB "wind"
  · rw [hasKey_fillStep_ne _ (by decide : ("thermik" : String) ≠ "risks")]
    exact hasKey_fillStep_self _ "thermik"
  · exact hasKey_fillStep_self _ "risks"
  · intro d0 h0
    have hdB0 : dB = d0 := hobj d0 (by rw [hdetEq]; exact h0)
    subst hdB0
    refine ⟨?_, ?_, ?_, ?_⟩
    · intro k2 w hw
      exact lookupKey_fillStep_preserve "risks" (lookupKey_fillStep_preserve "thermik"
        (lookupKey_fillStep_preserve "wind" hw))
    · intro hnw
      exact lookupKey_fillStep_preserve "risks" (lookupKey_fillStep_preserve "thermik"
        (lookupKey_fillStep_absent hnw))
    · intro hnt
      have hnt' : hasKey (fillStep dB "wind") "thermik" = false := by
        rw [hasKey_fillStep_ne _ (by decide : ("thermik" : String) ≠ "wind")]
        exact hnt
      exact lookupKey_fillStep_preserve "risks" (lookupKey_fillStep_absent hnt')
    · intro hnr
      have hnr' : hasKey (fillStep (fillStep dB "wind") "thermik") "risks" = false := by
        rw [hasKey_fillStep_ne _ (by decide : ("risks" : String) ≠ "thermik"),
          hasKey_fillStep_ne _ (by decide : ("risks" : String) ≠ "wind")]
        exact hnr
      exact lookupKey_fillStep_absent hnr'
  · intro hno
    have hno' : hasKey (ensureFlyable r) "details" = false := by
      unfold hasKey
      rw [hdetEq]
      exact hno
    rw [habs hno']
    rfl
  · unfold stageOne
    rw [lookupKey_fillDetailField_ne _ _ (by decide : ("flyable" : String) ≠ "details"),
      lookupKey_fillDetailField_ne _ _ (by decide : ("flyable" : String) ≠ "details"),
      lookupKey_fillDetailField_ne _ _ (by decide : ("flyable" : String) ≠ "details"),
      lookupKey_ensureDetails_ne _ (by decide : ("flyable" : String) ≠ "details")]
    exact lookupKey_ensureKey_self r "flyable" (JVal.jbool false)
  · intro k hk1 hk2
    unfold stageOne
    rw [lookupKey_fillDetailField_ne _ _ hk2, lookupKey_fillDetailField_ne _ _ hk2,
      lookupKey_fillDetailField_ne _ _ hk2, lookupKey_ensureDetails_ne _ hk2]
    exact lookupKey_ensureKey_ne r _ hk1

theorem coerceStage_inv {x r2 : JObj} (hc : coerceStage x = some r2) :
    ∃ rat conf c,
      pyInt ((lookupKey x "rating").getD (JVal.jint 0)) = some rat ∧
      pyInt ((lookupKey x "confidence").getD (JVal.jint 0)) = some conf ∧
      pyStr ((lookupKey x "conditions").getD (JVal.jstr "UNKNOWN")) = some c ∧
      r2 = setKey (setKey (setKey (setKey x "flyable"
        (JVal.jbool (pyBool ((lookupKey x "flyable").getD (JVal.jbool false)))))
        "rating" (JVal.jint rat)) "confidence" (JVal.jint conf))
        "conditions" (JVal.jstr c) := by
  unfold coerceStage at hc
  dsimp only at hc
  rw [lookupKey_setKey_ne x _ (show ("rating" : String) ≠ "flyable" by decide)] at hc
  cases h1 : pyInt ((lookupKey x "rating").getD (JVal.jint 0)) with
  | none => simp [h1] at hc
  | some rat =>
  simp only [h1] at hc
  rw [lookupKey_setKey_ne _ _ (show ("confidence" : String) ≠ "rating" by decide),
    lookupKey_setKey_ne x _ (show ("confidence" : String) ≠ "flyable" by decide)] at hc
  cases h2 : pyInt ((lookupKey x "confidence").getD (JVal.jint 0)) with
  | none => simp [h2] at hc
  | some conf =>
  simp only [h2] at hc
  rw [lookupKey_setKey_ne _ _ (show ("conditions" : String) ≠ "confidence" by decide),
    lookupKey_setKey_ne _ _ (show ("conditions" : String) ≠ "rating" by decide),
    lookupKey_setKey_ne x _ (show ("conditions" : String) ≠ "flyable" by decide)] at hc
  cases h3 : pyStr ((lookupKey x "conditions").getD (JVal.jstr "UNKNOWN")) with
  | none => simp [h3] at hc
  | some c =>
  simp only [h3, Option.some.injEq] at hc
  exact ⟨rat, conf, c, rfl, rfl, rfl, hc.symm⟩

theorem normalize_spec {r r' : JObj} (h : normalizeVerdict r = some r') :
    ∃ (d : JObj) (b : Bool) (rat conf : Int) (c : String) (v : List JVal),
      keyUniform r' "flyable" (JVal.jbool b) ∧
      keyUniform r' "rating" (JVal.jint rat) ∧
      keyUniform r' "confidence" (JVal.jint conf) ∧
      keyUniform r' "conditions" (JVal.jstr c) ∧
      keyUniform r' "hourly_evaluations" (JVal.jarr v) ∧
      validateHourlyList v = some v ∧
      lookupKey r' "details" = some (JVal.jobj d) ∧
      hasKey d "wind" = true ∧ hasKey d "thermik" = true ∧ hasKey d "risks" = true ∧
      hasKey r' "summary" = true ∧ hasKey r' "recommendation" = true ∧
      b = pyBool ((lookupKey r "flyable").getD (JVal.jbool false)) ∧
      pyInt ((lookupKey r "rating").getD (JVal.jint 0)) = some rat ∧
      pyInt ((lookupKey r "confidence").getD (JVal.jint 0)) = some conf ∧
      pyStr ((lookupKey r "conditions").getD (JVal.jstr "UNKNOWN")) = some c ∧
      (hasKey r "summary" = false →
        lookupKey r' "summary" = some (JVal.jstr "Keine Zusammenfassung verfügbar")) ∧
      (hasKey r "recommendation" = false →
        lookupKey r' "recommendation" = some (JVal.jstr "Keine Empfehlung verfügbar")) ∧
      (∀ d0, lookupKey r "details" = some (JVal.jobj d0) →
        (∀ k2 w, lookupKey d0 k2 = some w → lookupKey d k2 = some w) ∧
        (hasKey d0 "wind" = false →
          lookupKey d "wind" = some (JVal.jstr "Nicht verfügbar")) ∧
        (hasKey d0 "thermik" = false →
          lookupKey d "thermik" = some (JVal.jstr "Nicht verfügbar")) ∧
        (hasKey d0 "risks" = false →
          lookupKey d "risks" = some (JVal.jstr "Nicht verfügbar"))) ∧
      (hasKey r "details" = false →
        d = [("wind", JVal.jstr "Nicht verfügbar"),
             ("thermik", JVal.jstr "Nicht verfügbar"),
             ("risks", JVal.jstr "Nicht verfügbar")]) ∧
      (∀ k, k ≠ "flyable" → k ≠ "details" → k ≠ "rating" → k ≠ "confidence" →
        k ≠ "conditions" → k ≠ "summary" → k ≠ "recommendation" →
        k ≠ "hourly_evaluations" → lookupKey r' k = lookupKey r k) := by
  obtain ⟨dR, hdR, hw, ht, hk, hrel, habs, hfly, hframe1⟩ := fills_spec r
  unfold normalizeVerdict at h
  cases hc : coerceStage (stageOne r) with
  | none => simp [hc] at h
  | some r2 =>
  simp only [hc] at h
  obtain ⟨rat, conf, c, hrat1, hconf1, hcond1, hr2⟩ := coerceStage_inv hc
  have hratR : pyInt ((lookupKey r "rating").getD (JVal.jint 0)) = some rat := by
    rw [← hframe1 "rating" (by decide) (by decide)]
    exact hrat1
  have hconfR : pyInt ((lookupKey r "confidence").getD (JVal.jint 0)) = some conf := by
    rw [← hframe1 "confidence" (by decide) (by decide)]
    exact hconf1
  have hcondR : pyStr ((lookupKey r "conditions").getD (JVal.jstr "UNKNOWN")) = some c := by
    rw [← hframe1 "conditions" (by decide) (by decide)]
    exact hcond1
  have hbR : pyBool ((lookupKey (stageOne r) "flyable").getD (JVal.jbool false)) =
      pyBool ((lookupKey r "flyable").getD (JVal.jbool false)) := by
    rw [hfly]
    rfl
  have ku_fly2 : keyUniform r2 "flyable"
      (JVal.jbool (pyBool ((lookupKey (stageOne r) "flyable").getD (JVal.jbool false)))) := by
    rw [hr2]
    exact keyUniform_setKey_ne (keyUniform_setKey_ne (keyUniform_setKey_ne
      (keyUniform_setKey _ _ _) (by decide)) (by decide)) (by decide)
  have ku_rat2 : keyUniform r2 "rating" (JVal.jint rat) := by
    rw [hr2]
    exact keyUniform_setKey_ne (keyUniform_setKey_ne (keyUniform_setKey _ _ _)
      (by decide)) (by decide)
  have ku_conf2 : keyUniform r2 "confidence" (JVal.jint conf) := by
    rw [hr2]
    exact keyUniform_setKey_ne (keyUniform_setKey _ _ _) (by decide)
  have ku_cond2 : keyUniform r2 "conditions" (JVal.jstr c) := by
    rw [hr2]
    exact keyUniform_setKey _ _ _
  have hlook2 : ∀ k2 : String, k2 ≠ "flyable" → k2 ≠ "rating" → k2 ≠ "confidence" →
      k2 ≠ "conditions" → lookupKey r2 k2 = lookupKey (stageOne r) k2 := by
    intro k2 h1 h2 h3 h4
    rw [hr2, lookupKey_setKey_ne _ _ h4, lookupKey_setKey_ne _ _ h3,
      lookupKey_setKey_ne _ _ h2, lookupKey_setKey_ne _ _ h1]
  have ku_fly3 : keyUniform (stageThree r2) "flyable"
      (JVal.jbool (pyBool ((lookupKey (stageOne r) "flyable").getD (JVal.jbool false)))) :=
    keyUniform_ensureKey_ne (keyUniform_ensureKey_ne ku_fly2 (by decide)) (by decide)
  have ku_rat3 : keyUniform (stageThree r2) "rating" (JVal.jint rat) :=
    keyUniform_ensureKey_ne (keyUniform_ensureKey_ne ku_rat2 (by decide)) (by decide)
  have ku_conf3 : keyUniform (stageThree r2) "confidence" (JVal.jint conf) :=
    keyUniform_ensureKey_ne (keyUniform_ensureKey_ne ku_conf2 (by decide)) (by decide)
  have ku_cond3 : keyUniform (stageThree r2) "conditions" (JVal.jstr c) :=
    keyUniform_ensureKey_ne (keyUniform_ensureKey_ne ku_cond2 (by decide)) (by decide)
  have hlook3 : ∀ k2 : String, k2 ≠ "summary" → k2 ≠ "recommendation" →
      lookupKey (stageThree r2) k2 = lookupKey r2 k2 := by
    intro k2 h1 h2
    exact (lookupKey_ensureKey_ne _ _ h2).trans (lookupKey_ensureKey_ne _ _ h1)
  have hsum3 : hasKey (stageThree r2) "summary" = true := by
    rw [show stageThree r2 = ensureKey (ensureKey r2 "summary"
      (JVal.jstr "Keine Zusammenfassung verfügbar")) "recommendation"
      (JVal.jstr "Keine Empfehlung verfügbar") from rfl,
      hasKey_ensureKey_ne _ _ (by decide)]
    exact hasKey_ensureKey_self _ _ _
  have hrec3 : hasKey (stageThree r2) "recommendation" = true := by
    rw [show stageThree r2 = ensureKey (ensureKey r2 "summary"
      (JVal.jstr "Keine Zusammenfassung verfügbar")) "recommendation"
      (JVal.jstr "Keine Empfehlung verfügbar") from rfl]
    exact hasKey_ensureKey_self _ _ _
  have hsumdef : hasKey r "summary" = false →
      lookupKey (stageThree r2) "summary" =
        some (JVal.jstr "Keine Zusammenfassung verfügbar") := by
    intro h0
    have hnone : lookupKey r2 "summary" = none := by
      rw [hlook2 "summary" (by decide) (by decide) (by decide) (by decide),
        hframe1 "summary" (by decide) (by decide)]
      cases hv0 : lookupKey r "summary" with
      | none => rfl
      | some w => simp [hasKey, hv0] at h0
    rw [show stageThree r2 = ensureKey (ensureKey r2 "summary"
      (JVal.jstr "Keine Zusammenfassung verfügbar")) "recommendation"
      (JVal.jstr "Keine Empfehlung verfügbar") from rfl,
      lookupKey_ensureKey_ne _ _ (by decide),
      lookupKey_ensureKey_self, hnone]
    rfl
  have hrecdef : hasKey r "recommendation" = false →
      lookupKey (stageThree r2) "recommendation" =
        some (JVal.jstr "Keine Empfehlung verfügbar") := by
    intro h0
    have hnone : lookupKey (ensureKey r2 "summary"
        (JVal.jstr "Keine Zusammenfassung verfügbar")) "recommendation" = none := by
      rw [lookupKey_ensureKey_ne _ _ (by decide),
        hlook2 "recommendation" (by decide) (by decide) (by decide) (by decide),
        hframe1 "recommendation" (by decide) (by decide)]
      cases hv0 : lookupKey r "recommendation" with
      | none => rfl
      | some w => simp [hasKey, hv0] at h0
    rw [show stageThree r2 = ensureKey (ensureKey r2 "summary"
      (JVal.jstr "Keine Zusammenfassung verfügbar")) "recommendation"
      (JVal.jstr "Keine Empfehlung verfügbar") from rfl,
      lookupKey_ensureKey_self, hnone]
    rfl
  have hshape : ∃ v, r' = setKey (stageThree r2) "hourly_evaluations" (JVal.jarr v) ∧
      validateHourlyList v = some v := by
    cases hhv : lookupKey (stageThree r2) "hourly_evaluations" with
    | none =>
      have hne : ∀ xs, lookupKey (stageThree r2) "hourly_evaluations" ≠
          some (JVal.jarr xs) := by
        intro xs hx
        rw [hhv] at hx
        exact absurd hx (by simp)
      rw [hourlyStage_not_arr hne] at h
      exact ⟨[], (Option.some.inj h).symm, rfl⟩
    | some w =>
      cases w with
      | jarr xs =>
        cases hval : validateHourlyList xs with
        | none =>
          unfold hourlyStage at h
          rw [hhv] at h
          simp [hval] at h
        | some v =>
          rw [hourlyStage_arr hhv hval] at h
          exact ⟨v, (Option.some.inj h).symm, validateHourlyList_idem hval⟩
      | null =>
        have hne : ∀ xs, lookupKey (stageThree r2) "hourly_evaluations" ≠
            some (JVal.jarr xs) := by
          intro xs hx
          rw [hhv] at hx
          exact absurd hx (by simp)
        rw [hourlyStage_not_arr hne] at h
        exact ⟨[], (Option.some.inj h).symm, rfl⟩
      | jbool b0 =>
        have hne : ∀ xs, lookupKey (stageThree r2) "hourly_evaluations" ≠
            some (JVal.jarr xs) := by
          intro xs hx
          rw [hhv] at hx
          exact absurd hx (by simp)
        rw [hourlyStage_not_arr hne] at h
        exact ⟨[], (Option.some.inj h).symm, rfl⟩
      | jint n0 =>
        have hne : ∀ xs, lookupKey (stageThree r2) "hourly_evaluations" ≠
            some (JVal.jarr xs) := by
          intro xs hx
          rw [hhv] at hx
          exact absurd hx (by simp)
        rw [hourlyStage_not_arr hne] at h
        exact ⟨[], (Option.some.inj h).symm, rfl⟩
      | jstr s0 =>
        have hne : ∀ xs, lookupKey (stageThree r2) "hourly_evaluations" ≠
            some (JVal.jarr xs) := by
          intro xs hx
          rw [hhv] at hx
          exact absurd hx (by simp)
        rw [hourlyStage_not_arr hne] at h
        exact ⟨[], (Option.some.inj h).symm, rfl⟩
      | jobj o0 =>
        have hne : ∀ xs, lookupKey (stageThree r2) "hourly_evaluations" ≠
            some (JVal.jarr xs) := by
          intro xs hx
          rw [hhv] at hx
          exact absurd hx (by simp)
        rw [hourlyStage_not_arr hne] at h
        exact ⟨[], (Option.some.inj h).symm, rfl⟩
  obtain ⟨v, hrpdef, hvv⟩ := hshape
  refine ⟨dR, pyBool ((lookupKey (stageOne r) "flyable").getD (JVal.jbool false)),
    rat, conf, c, v, ?_, ?_, ?_, ?_, ?_, hvv, ?_, hw, ht, hk, ?_, ?_, ?_,
    hratR, hconfR, hcondR, ?_, ?_, hrel, habs, ?_⟩
  · rw [hrpdef]
    exact keyUniform_setKey_ne ku_fly3 (by decide)
  · rw [hrpdef]
    exact keyUniform_setKey_ne ku_rat3 (by decide)
  · rw [hrpdef]
    exact keyUniform_setKey_ne ku_conf3 (by decide)
  · rw [hrpdef]
    exact keyUniform_setKey_ne ku_cond3 (by decide)
  · rw [hrpdef]
    exact keyUniform_setKey _ _ _
  · rw [hrpdef,
      lookupKey_setKey_ne _ _ (by decide : ("details" : String) ≠ "hourly_evaluations"),
      hlook3 "details" (by decide) (by decide),
      hlook2 "details" (by decide) (by decide) (by decide) (by decide)]
    exact hdR
  · rw [hrpdef,
      hasKey_setKey_ne _ _ (by decide : ("summary" : String) ≠ "hourly_evaluations")]
    exact hsum3
  · rw [hrpdef, hasKey_setKey_ne _ _
      (by decide : ("recommendation" : String) ≠ "hourly_evaluations")]
    exact hrec3
  · exact hbR
  · intro h0
    rw [hrpdef,
      lookupKey_setKey_ne _ _ (by decide : ("summary" : String) ≠ "hourly_evaluations")]
    exact hsumdef h0
  · intro h0
    rw [hrpdef, lookupKey_setKey_ne _ _
      (by decide : ("recommendation" : String) ≠ "hourly_evaluations")]
    exact hrecdef h0
  · intro k h1 h2 h3 h4 h5 h6 h7 h8
    rw [hrpdef, lookupKey_setKey_ne _ _ h8, hlook3 k h6 h7, hlook2 k h1 h3 h4 h5,
      hframe1 k h1 h2]

set_option maxHeartbeats 1000000 in
theorem normalize_total (r : JObj)
    (hrat : (pyInt ((lookupKey r "rating").getD (JVal.jint 0))).isSome = true)
    (hconf : (pyInt ((lookupKey r "confidence").getD (JVal.jint 0))).isSome = true)
    (hcond : (pyStr ((lookupKey r "conditions").getD (JVal.jstr "UNKNOWN"))).isSome = true)
    (hhourly : ∀ xs, lookupKey r "hourly_evaluations" = some (JVal.jarr xs) →
      (validateHourlyList xs).isSome = true) :
    ∃ r', normalizeVerdict r = some r' := by
  obtain ⟨dR, hdR, hw, ht, hk, hrel, habs, hfly, hframe1⟩ := fills_spec r
  obtain ⟨rat, hratx⟩ := Option.isSome_iff_exists.mp hrat
  obtain ⟨conf, hconfx⟩ := Option.isSome_iff_exists.mp hconf
  obtain ⟨c, hcondx⟩ := Option.isSome_iff_exists.mp hcond
  have hrat1 : pyInt ((lookupKey (stageOne r) "rating").getD (JVal.jint 0)) = some rat := by
    rw [hframe1 "rating" (by decide) (by decide)]
    exact hratx
  have hconf1 : pyInt ((lookupKey (stageOne r) "confidence").getD (JVal.jint 0)) =
      some conf := by
    rw [hframe1 "confidence" (by decide) (by decide)]
    exact hconfx
  have hcond1 : pyStr ((lookupKey (stageOne r) "conditions").getD (JVal.jstr "UNKNOWN")) =
      some c := by
    rw [hframe1 "conditions" (by decide) (by decide)]
    exact hcondx
  obtain ⟨r2, hc⟩ : ∃ r2, coerceStage (stageOne r) = some r2 :=
    ⟨_, coerceStage_spec (stageOne r) rat conf c hrat1 hconf1 hcond1⟩
  obtain ⟨rat2, conf2, c2, _, _, _, hr2⟩ := coerceStage_inv hc
  have hlook2 : lookupKey r2 "hourly_evaluations" =
      lookupKey (stageOne r) "hourly_evaluations" := by
    rw [hr2, lookupKey_setKey_ne _ _ (by decide), lookupKey_setKey_ne _ _ (by decide),
      lookupKey_setKey_ne _ _ (by decide), lookupKey_setKey_ne _ _ (by decide)]
  have htrans : lookupKey (stageThree r2) "hourly_evaluations" =
      lookupKey r "hourly_evaluations" := by
    rw [show stageThree r2 = ensureKey (ensureKey r2 "summary"
      (JVal.jstr "Keine Zusammenfassung verfügbar")) "recommendation"
      (JVal.jstr "Keine Empfehlung verfügbar") from rfl,
      lookupKey_ensureKey_ne _ _ (by decide), lookupKey_ensureKey_ne _ _ (by decide),
      hlook2, hframe1 "hourly_evaluations" (by decide) (by decide)]
  unfold normalizeVerdict
  rw [hc]
  show ∃ x, hourlyStage (stageThree r2) = some x
  cases hv : lookupKey r "hourly_evaluations" with
  | none =>
    refine ⟨_, hourlyStage_not_arr ?_⟩
    intro xs hx
    rw [htrans, hv] at hx
    exact absurd hx (by simp)
  | some w =>
    cases w with
    | jarr xs =>
      obtain ⟨v, hval⟩ := Option.isSome_iff_exists.mp (hhourly xs hv)
      exact ⟨_, hourlyStage_arr (htrans.trans hv) hval⟩
    | null =>
      refine ⟨_, hourlyStage_not_arr ?_⟩
      intro xs hx
      rw [htrans, hv] at hx
      exact absurd hx (by simp)
    | jbool b0 =>
      refine ⟨_, hourlyStage_not_arr ?_⟩
      intro xs hx
      rw [htrans, hv] at hx
      exact absurd hx (by simp)
    | jint n0 =>
      refine ⟨_, hourlyStage_not_arr ?_⟩
      intro xs hx
      rw [htrans, hv] at hx
      exact absurd hx (by simp)
    | jstr s0 =>
      refine ⟨_, hourlyStage_not_arr ?_⟩
      intro xs hx
      rw [htrans, hv] at hx
      exact absurd hx (by simp)
    | jobj o0 =>
      refine ⟨_, hourlyStage_not_arr ?_⟩
      intro xs hx
      rw [htrans, hv] at hx
      exact absurd hx (by simp)

/-- Claim C2: on every parsed LLM response object whose present numeric and
string fields are coercible, normalization succeeds (absent fields never
raise) and yields a verdict where flyable defaults to false, details is an
object with wind/thermik/risks defaulting to the "Nicht verfügbar"
placeholder without overwriting supplied sub-fields, rating and confidence
are coerced integers defaulting to 0, conditions is a coerced string
defaulting to UNKNOWN, and summary/recommendation default to placeholder
text. -/
theorem C2_llm_verdict_normalization (r : JObj)
    (hrat : (pyInt ((lookupKey r "rating").getD (JVal.jint 0))).isSome = true)
    (hconf : (pyInt ((lookupKey r "confidence").getD (JVal.jint 0))).isSome = true)
    (hcond : (pyStr ((lookupKey r "conditions").getD (JVal.jstr "UNKNOWN"))).isSome = true)
    (hhourly : ∀ xs, lookupKey r "hourly_evaluations" = some (JVal.jarr xs) →
      (validateHourlyList xs).isSome = true) :
    ∃ r', normalizeVerdict r = some r' ∧
      (∃ b, lookupKey r' "flyable" = some (JVal.jbool b) ∧
        (hasKey r "flyable" = false → b = false)) ∧
      (∃ d, lookupKey r' "details" = some (JVal.jobj d) ∧
        hasKey d "wind" = true ∧ hasKey d "thermik" = true ∧ hasKey d "risks" = true ∧
        (∀ d0, lookupKey r "details" = some (JVal.jobj d0) →
          ∀ k2 w, lookupKey d0 k2 = some w → lookupKey d k2 = some w) ∧
        (hasKey r "details" = false →
          d = [("wind", JVal.jstr "Nicht verfügbar"),
               ("thermik", JVal.jstr "Nicht verfügbar"),
               ("risks", JVal.jstr "Nicht verfügbar")])) ∧
      (∃ n, lookupKey r' "rating" = some (JVal.jint n) ∧
        (hasKey r "rating" = false → n = 0)) ∧
      (∃ n, lookupKey r' "confidence" = some (JVal.jint n) ∧
        (hasKey r "confidence" = false → n = 0)) ∧
      (∃ cs, lookupKey r' "conditions" = some (JVal.jstr cs) ∧
        (hasKey r "conditions" = false → cs = "UNKNOWN")) ∧
      (hasKey r "summary" = false →
        lookupKey r' "summary" = some (JVal.jstr "Keine Zusammenfassung verfügbar")) ∧
      (hasKey r "recommendation" = false →
        lookupKey r' "recommendation" = some (JVal.jstr "Keine Empfehlung verfügbar")) := by
  obtain ⟨r', hn⟩ := normalize_total r hrat hconf hcond hhourly
  obtain ⟨d, b, rat, conf, c, v, kufly, kurat, kuconf, kucond, kuhourly, hvv, hdet,
    hdw, hdt, hdk, hsum, hrec, hbdef, hratdef, hconfdef, hconddef, hsumdef, hrecdef,
    hreld, habsd, hframe⟩ := normalize_spec hn
  refine ⟨r', hn, ⟨b, kufly.1, ?_⟩, ⟨d, hdet, hdw, hdt, hdk,
    (fun d0 h0 => (hreld d0 h0).1), habsd⟩, ⟨rat, kurat.1, ?_⟩,
    ⟨conf, kuconf.1, ?_⟩, ⟨c, kucond.1, ?_⟩, hsumdef, hrecdef⟩
  · intro h0
    have hnone : lookupKey r "flyable" = none := by
      cases hv0 : lookupKey r "flyable" with
      | none => rfl
      | some w => simp [hasKey, hv0] at h0
    rw [hnone] at hbdef
    exact hbdef
  · intro h0
    have hnone : lookupKey r "rating" = none := by
      cases hv0 : lookupKey r "rating" with
      | none => rfl
      | some w => simp [hasKey, hv0] at h0
    rw [hnone] at hratdef
    exact (Option.some.inj hratdef).symm
  · intro h0
    have hnone : lookupKey r "confidence" = none := by
      cases hv0 : lookupKey r "confidence" with
      | none => rfl
      | some w => simp [hasKey, hv0] at h0
    rw [hnone] at hconfdef
    exact (Option.some.inj hconfdef).symm
  · intro h0
    have hnone : lookupKey r "conditions" = none := by
      cases hv0 : lookupKey r "conditions" with
      | none => rfl
      | some w => simp [hasKey, hv0] at h0
    rw [hnone] at hconddef
    exact (Option.some.inj hconddef).symm

/-- The scenario of claim C2: a response omitting every field (in particular
`details`) normalizes, without a missing-field error, to the all-default
verdict with the three placeholder details and flyable false; the defaults
are obtained through `C2_llm_verdict_normalization` at the empty object. -/
theorem C2_llm_verdict_normalization_witness :
    normalizeVerdict [] = some
      [("flyable", JVal.jbool false),
       ("details", JVal.jobj [("wind", JVal.jstr "Nicht verfügbar"),
         ("thermik", JVal.jstr "Nicht verfügbar"),
         ("risks", JVal.jstr "Nicht verfügbar")]),
       ("rating", JVal.jint 0), ("confidence", JVal.jint 0),
       ("conditions", JVal.jstr "UNKNOWN"),
       ("summary", JVal.jstr "Keine Zusammenfassung verfügbar"),
       ("recommendation", JVal.jstr "Keine Empfehlung verfügbar"),
       ("hourly_evaluations", JVal.jarr [])] ∧
    (∃ r', normalizeVerdict [] = some r' ∧
      ∃ b, lookupKey r' "flyable" = some (JVal.jbool b) ∧
        (hasKey ([] : JObj) "flyable" = false → b = false)) := by
  refine ⟨rfl, ?_⟩
  obtain ⟨r', hn, hfly, _⟩ := C2_llm_verdict_normalization [] rfl rfl rfl
    (fun xs hx => by simp [lookupKey] at hx)
  exact ⟨r', hn, hfly⟩

/-- Claim C9: the verdict normalization is idempotent — re-normalizing any
normalized verdict returns it unchanged; no coerced integer, string,
detail sub-field or validated hourly entry drifts. -/
theorem C9_normalization_idempotent (r r' : JObj)
    (h : normalizeVerdict r = some r') : normalizeVerdict r' = some r' := by
  obtain ⟨d, b, rat, conf, c, v, kufly, kurat, kuconf, kucond, kuhourly, hvv, hdet,
    hdw, hdt, hdk, hsum, hrec, _, _, _, _, _, _, _, _, _⟩ := normalize_spec h
  have h1 : stageOne r' = r' := by
    unfold stageOne ensureFlyable
    rw [ensureKey_of_hasKey _ (hasKey_of_keyUniform kufly), ensureDetails_of_obj hdet,
      fillDetailField_of_hasKey hdet hdw, fillDetailField_of_hasKey hdet hdt,
      fillDetailField_of_hasKey hdet hdk]
  have hrat2 : pyInt ((lookupKey r' "rating").getD (JVal.jint 0)) = some rat := by
    rw [kurat.1]
    rfl
  have hconf2 : pyInt ((lookupKey r' "confidence").getD (JVal.jint 0)) = some conf := by
    rw [kuconf.1]
    rfl
  have hcond2 : pyStr ((lookupKey r' "conditions").getD (JVal.jstr "UNKNOWN")) =
      some c := by
    rw [kucond.1]
    rfl
  have h2 : coerceStage r' = some r' := by
    rw [coerceStage_spec r' rat conf c hrat2 hconf2 hcond2, kufly.1]
    rw [show JVal.jbool (pyBool ((some (JVal.jbool b)).getD (JVal.jbool false))) =
      JVal.jbool b from rfl]
    rw [setKey_of_keyUniform kufly, setKey_of_keyUniform kurat,
      setKey_of_keyUniform kuconf, setKey_of_keyUniform kucond]
  have h3 : stageThree r' = r' := by
    unfold stageThree ensureField
    rw [ensureKey_of_hasKey _ hsum, ensureKey_of_hasKey _ hrec]
  have h4 : hourlyStage r' = some r' := by
    rw [hourlyStage_arr kuhourly.1 hvv, setKey_of_keyUniform kuhourly]
  unfold normalizeVerdict
  rw [h1, h2]
  show hourlyStage (stageThree r') = some r'
  rw [h3]
  exact h4

/-- Idempotence at a concrete already-normalized verdict (the normalization
of the empty response), obtained through `C9_normalization_idempotent`. -/
theorem C9_normalization_idempotent_witness :
    normalizeVerdict
      [("flyable", JVal.jbool false),
       ("details", JVal.jobj [("wind", JVal.jstr "Nicht verfügbar"),
         ("thermik", JVal.jstr "Nicht verfügbar"),
         ("risks", JVal.jstr "Nicht verfügbar")]),
       ("rating", JVal.jint 0), ("confidence", JVal.jint 0),
       ("conditions", JVal.jstr "UNKNOWN"),
       ("summary", JVal.jstr "Keine Zusammenfassung verfügbar"),
       ("recommendation", JVal.jstr "Keine Empfehlung verfügbar"),
       ("hourly_evaluations", JVal.jarr [])] = some
      [("flyable", JVal.jbool false),
       ("details", JVal.jobj [("wind", JVal.jstr "Nicht verfügbar"),
         ("thermik", JVal.jstr "Nicht verfügbar"),
         ("risks", JVal.jstr "Nicht verfügbar")]),
       ("rating", JVal.jint 0), ("confidence", JVal.jint 0),
       ("conditions", JVal.jstr "UNKNOWN"),
       ("summary", JVal.jstr "Keine Zusammenfassung verfügbar"),
       ("recommendation", JVal.jstr "Keine Empfehlung verfügbar"),
       ("hourly_evaluations", JVal.jarr [])] :=
  C9_normalization_idempotent [] _ rfl

/-- Claim C10: normalization leaves every top-level field other than
flyable, details, rating, confidence, conditions, summary, recommendation
and hourly_evaluations unchanged, and inside details every sub-field the
model supplied keeps its value — extra model fields are carried through. -/
theorem C10_normalization_frame (r r' : JObj)
    (h : normalizeVerdict r = some r') :
    (∀ k, k ∉ (["flyable", "details", "rating", "confidence", "conditions",
      "summary", "recommendation", "hourly_evaluations"] : List String) →
      lookupKey r' k = lookupKey r k) ∧
    (∀ d0, lookupKey r "details" = some (JVal.jobj d0) →
      ∃ d, lookupKey r' "details" = some (JVal.jobj d) ∧
        ∀ k2 w, lookupKey d0 k2 = some w → lookupKey d k2 = some w) := by
  obtain ⟨d, b, rat, conf, c, v, _, _, _, _, _, _, hdet, _, _, _, _, _, _, _, _, _,
    _, _, hreld, _, hframe⟩ := normalize_spec h
  constructor
  · intro k hk
    simp only [List.mem_cons, List.mem_singleton, not_or] at hk
    obtain ⟨h1, h2, h3, h4, h5, h6, h7, h8⟩ := hk
    exact hframe k h1 h2 h3 h4 h5 h6 h7 (by simpa using h8)
  · intro d0 h0
    exact ⟨d, hdet, (hreld d0 h0).1⟩

/-- A response with an unrecognized extra field and a supplied detail
sub-field: both survive normalization unchanged; the extra-field fact is
obtained through `C10_normalization_frame`. -/
theorem C10_normalization_frame_witness :
    normalizeVerdict [("custom", JVal.jint 7),
      ("details", JVal.jobj [("wind", JVal.jstr "Westwind 12 km/h")])] = some
      [("custom", JVal.jint 7),
       ("details", JVal.jobj [("wind", JVal.jstr "Westwind 12 km/h"),
         ("thermik", JVal.jstr "Nicht verfügbar"),
         ("risks", JVal.jstr "Nicht verfügbar")]),
       ("flyable", JVal.jbool false),
       ("rating", JVal.jint 0), ("confidence", JVal.jint 0),
       ("conditions", JVal.jstr "UNKNOWN"),
       ("summary", JVal.jstr "Keine Zusammenfassung verfügbar"),
       ("recommendation", JVal.jstr "Keine Empfehlung verfügbar"),
       ("hourly_evaluations", JVal.jarr [])] ∧
    (∃ r', normalizeVerdict [("custom", JVal.jint 7),
      ("details", JVal.jobj [("wind", JVal.jstr "Westwind 12 km/h")])] = some r' ∧
      lookupKey r' "custom" = some (JVal.jint 7)) := by
  have hn : normalizeVerdict [("custom", JVal.jint 7),
      ("details", JVal.jobj [("wind", JVal.jstr "Westwind 12 km/h")])] = some
      [("custom", JVal.jint 7),
       ("details", JVal.jobj [("wind", JVal.jstr "Westwind 12 km/h"),
         ("thermik", JVal.jstr "Nicht verfügbar"),
         ("risks", JVal.jstr "Nicht verfügbar")]),
       ("flyable", JVal.jbool false),
       ("rating", JVal.jint 0), ("confidence", JVal.jint 0),
       ("conditions", JVal.jstr "UNKNOWN"),
       ("summary", JVal.jstr "Keine Zusammenfassung verfügbar"),
       ("recommendation", JVal.jstr "Keine Empfehlung verfügbar"),
       ("hourly_evaluations", JVal.jarr [])] := rfl
  refine ⟨hn, ⟨_, hn, ?_⟩⟩
  rw [(C10_normalization_frame _ _ hn).1 "custom" (by decide)]
  rfl
